import Mathlib

/-!
Shallow embedding of the TDScheduler reconciliation engine
(`scorepicks.py`, `injuryCheck.py`, `playerUpdate.py`, `fetchschedule.py`,
`scheduleUpdate.py`) together with theorems settling the frozen claims.

Modelling conventions:
* Database tables are Lean lists of records; a SQL `UPDATE ... WHERE`
  is a `List.map` with the row predicate, a `DELETE ... WHERE` is a
  `List.filter` on the negated predicate, and an `INSERT` appends a row.
  All statements of one run act on the same in-transaction state, so a
  `SELECT` issued after a `DELETE` sees the deletion (MySQL semantics
  within one connection).
* `CURRENT_TIMESTAMP` / `NOW()` is an explicit `now : Nat` parameter.
* Calendar dates are modelled by their `YYYYMMDD` numeric key; on the
  valid dates produced by `strptime("%Y%m%d")` comparison of keys agrees
  with comparison of Python `date` objects.
* The pytz conversion `dt.replace(tzinfo=eastern).astimezone(irish)` is
  library code outside the repository, modelled as an abstract total
  function `tz : PyDateTime → PyDateTime` passed to the embedding.
* Python functions that raise on malformed input that no caller of the
  claims exercises (`strptime` on an invalid date inside
  `determine_week`, an empty `byeWeeks` list) are modelled as returning
  `none` / skipping, and the claims are stated on valid inputs only.
-/

namespace TDScheduler

/-- A Python `datetime` value as used by the schedule scripts: a calendar
date (as `YYYYMMDD` key), a time of day, and the sub-minute fields that
`convert_to_irish_time` truncates. -/
structure PyDateTime where
  dateKey : Nat
  hour : Nat
  minute : Nat
  second : Nat
  microsecond : Nat
deriving DecidableEq

/-- Numeric value of a digit run. -/
def digitsToNat (cs : List Char) : Nat :=
  cs.foldl (fun a c => a * 10 + (c.toNat - 48)) 0

/-- 12-hour to 24-hour clock conversion as performed by `strptime` with
`%I`/`%p`: hour 12 AM is 0, hour 12 PM stays 12, other PM hours gain 12. -/
def hour24 (h : Nat) (pm : Bool) : Nat :=
  if pm then (if h = 12 then 12 else h + 12)
  else (if h = 12 then 0 else h)

/-- `datetime.strptime(s, "%I:%M%p")` on the `a`/`p`-substituted feed time:
one or two digits for the hour (value 1–12), a literal colon, one or two
digits for the minutes (value 0–59), then `AM`/`PM` (case-insensitive),
with the whole string consumed.  Returns the 24-hour `(hour, minute)`. -/
def parseTime12 (s : String) : Option (Nat × Nat) :=
  let cs := s.data
  let hds := cs.takeWhile Char.isDigit
  let rest := cs.dropWhile Char.isDigit
  if hds.length = 0 ∨ 2 < hds.length then none else
  let h := digitsToNat hds
  if h < 1 ∨ 12 < h then none else
  match rest with
  | ':' :: rest2 =>
    let mds := rest2.takeWhile Char.isDigit
    let rest3 := rest2.dropWhile Char.isDigit
    if mds.length = 0 ∨ 2 < mds.length then none else
    let m := digitsToNat mds
    if 59 < m then none else
    match rest3.map Char.toUpper with
    | ['A', 'M'] => some (hour24 h false, m)
    | ['P', 'M'] => some (hour24 h true, m)
    | _ => none
  | _ => none

/-- Day count of a Gregorian month. -/
def daysInMonth (y m : Nat) : Nat :=
  if m = 2 then (if y % 4 = 0 ∧ (y % 100 ≠ 0 ∨ y % 400 = 0) then 29 else 28)
  else if m = 4 ∨ m = 6 ∨ m = 9 ∨ m = 11 then 30
  else 31

/-- Digit value of a character. -/
def digitVal (c : Char) : Nat := c.toNat - 48

/-- `datetime.strptime(s, "%Y%m%d")`: four digits of year, then month and
day fields of one or two digits each (two-digit forms preferred, with
backtracking as in Python's `_strptime` regex), the whole string consumed,
and the resulting calendar date must exist.  Returns the `YYYYMMDD` key. -/
def parseDate8 (s : String) : Option Nat :=
  let cs := s.data
  if ¬ cs.all Char.isDigit then none else
  match cs with
  | [y1, y2, y3, y4, a, b] =>
    let y := digitsToNat [y1, y2, y3, y4]
    let m := digitVal a
    let d := digitVal b
    if 1 ≤ y ∧ 1 ≤ m ∧ m ≤ 9 ∧ 1 ≤ d ∧ d ≤ 9 then some (y * 10000 + m * 100 + d) else none
  | [y1, y2, y3, y4, a, b, c] =>
    let y := digitsToNat [y1, y2, y3, y4]
    let m2 := digitVal a * 10 + digitVal b
    let d1 := digitVal c
    let m1 := digitVal a
    let d2 := digitVal b * 10 + digitVal c
    if 1 ≤ y ∧ 1 ≤ m2 ∧ m2 ≤ 12 ∧ 1 ≤ d1 ∧ d1 ≤ 9 ∧ d1 ≤ daysInMonth y m2 then
      some (y * 10000 + m2 * 100 + d1)
    else if 1 ≤ y ∧ 1 ≤ m1 ∧ m1 ≤ 9 ∧ 1 ≤ d2 ∧ d2 ≤ 31 ∧ d2 ≤ daysInMonth y m1 then
      some (y * 10000 + m1 * 100 + d2)
    else none
  | [y1, y2, y3, y4, a, b, c, e] =>
    let y := digitsToNat [y1, y2, y3, y4]
    let m := digitVal a * 10 + digitVal b
    let d := digitVal c * 10 + digitVal e
    if 1 ≤ y ∧ 1 ≤ m ∧ m ≤ 12 ∧ 1 ≤ d ∧ d ≤ 31 ∧ d ≤ daysInMonth y m then
      some (y * 10000 + m * 100 + d)
    else none
  | _ => none

/-- Python `str.replace` for a one-character pattern (the only form the
code uses: `"a" → "AM"` and `"p" → "PM"`): every occurrence is replaced,
left to right. -/
def replaceChar (c : Char) (rep : List Char) : List Char → List Char
  | [] => []
  | x :: rest =>
    if x = c then rep ++ replaceChar c rep rest
    else x :: replaceChar c rep rest

/-- Python `game_time_et.replace("a", "AM").replace("p", "PM")`. -/
def substAmPm (s : String) : String :=
  ⟨replaceChar 'p' ['P', 'M'] (replaceChar 'a' ['A', 'M'] s.data)⟩

/-- `convert_to_irish_time` from `fetchschedule.py` / `scheduleUpdate.py`
(the two copies are textually identical).  `tz` stands for the pytz
pipeline `replace(tzinfo=eastern) ∘ astimezone(irish)`.  A literal
`"TBD"` or empty time returns `None`; a parse failure of either the time
or the date is caught and returns `None`; otherwise the converted value
has its seconds and microseconds zeroed. -/
def convert_to_irish_time (tz : PyDateTime → PyDateTime)
    (game_date game_time_et : String) : Option PyDateTime :=
  if game_time_et = "TBD" ∨ game_time_et = "" then none
  else
    let game_time_str := substAmPm game_time_et
    match parseTime12 game_time_str, parseDate8 game_date with
    | some hm, some dk =>
      let game_datetime : PyDateTime := ⟨dk, hm.1, hm.2, 0, 0⟩
      let conv := tz game_datetime
      some { conv with second := 0, microsecond := 0 }
    | _, _ => none

/-- The module-level `week_mapping` table (identical in
`fetchschedule.py`, `scheduleUpdate.py`, `create_game_schedules.py`),
already in the order produced by `sorted(week_mapping.items())`. -/
def week_mapping : List (Nat × Nat) :=
  [(7, 20241017), (8, 20241024), (9, 20241031), (10, 20241107),
   (11, 20241114), (12, 20241121), (13, 20241128), (14, 20241205),
   (15, 20241212), (16, 20241219), (17, 20241226), (18, 20250102)]

/-- The loop of `determine_week`: return the week whose `[start, next start)`
interval holds the date, the last listed week unconditionally at the last
index. -/
def determineWeekAux : List (Nat × Nat) → Nat → Option Nat
  | [], _ => none
  | [(w, _)], _ => some w
  | (w, s) :: (w2, s2) :: rest, d =>
    if s ≤ d ∧ d < s2 then some w else determineWeekAux ((w2, s2) :: rest) d

/-- `determine_week` from `fetchschedule.py` / `scheduleUpdate.py`.
Python raises on an unparsable date (modelled as `none`); on a parsed
date it scans the sorted week table. -/
def determine_week (game_date : String) : Option Nat :=
  (parseDate8 game_date).bind (determineWeekAux week_mapping)

/-- Start date key of a listed week, for stating the claim. -/
def weekStart (w : Nat) : Nat :=
  if w = 7 then 20241017
  else if w = 8 then 20241024
  else if w = 9 then 20241031
  else if w = 10 then 20241107
  else if w = 11 then 20241114
  else if w = 12 then 20241121
  else if w = 13 then 20241128
  else if w = 14 then 20241205
  else if w = 15 then 20241212
  else if w = 16 then 20241219
  else if w = 17 then 20241226
  else if w = 18 then 20250102
  else 0

/-- Day-of-week index (0 = Sunday) of a `YYYYMMDD` key, Sakamoto's method,
as produced by `strftime("%A")`. -/
def weekdayIndex (dk : Nat) : Nat :=
  let y0 := dk / 10000
  let m := dk / 100 % 100
  let d := dk % 100
  let t := [0, 3, 2, 5, 0, 3, 5, 1, 4, 6, 2, 4]
  let y := if m < 3 then y0 - 1 else y0
  (y + y / 4 - y / 100 + y / 400 + t.getD (m - 1) 0 + d) % 7

/-- `start_time.strftime("%A")`. -/
def dayName (t : PyDateTime) : String :=
  ["Sunday", "Monday", "Tuesday", "Wednesday", "Thursday", "Friday",
   "Saturday"].getD (weekdayIndex t.dateKey) ""

/-- A row of the `picks` table (the columns the engine touches). -/
structure Pick where
  id : Nat
  user_id : Nat
  player_id : Nat
  game_id : String
  week : Nat
  is_successful : Nat
  is_injured : Nat
deriving DecidableEq

/-- A row of the `leaderboard` table. -/
structure LeaderboardRow where
  user_id : Nat
  week : Nat
  points_week : Nat
  total_points : Nat
  last_updated : Nat
deriving DecidableEq

/-- A row of the `games` table, columns in their schema order
(`SELECT *` index 13 is `last_updated`, index 14 is `season`). -/
structure GameRow where
  game_id : String
  season_type : String
  week : Nat
  home_team : String
  away_team : String
  teamID_home : String
  teamID_away : String
  game_time : Option PyDateTime
  game_status : String
  game_status_code : Int
  neutral_site : Nat
  espn_link : String
  cbs_link : String
  last_updated : Nat
  season : String
deriving DecidableEq

/-- A row of the `pick_window` table. -/
structure PickWindowRow where
  week : Nat
  season : Nat
  day_name : String
  start_time : PyDateTime
  is_open : Nat
  last_updated : Nat
deriving DecidableEq

/-- A row of the `players` table.  `byeweek` is nullable (an insert leaves
it unset). -/
structure PlayerRow where
  player_id : Nat
  player_name : String
  team_name : String
  team_id : String
  position : String
  is_free_agent : Nat
  injury_status : String
  headshot_url : String
  byeweek : Option Nat
  last_updated : Nat
deriving DecidableEq

/-- One scoring play of a box-score feed response. -/
structure ScoringPlay where
  scoreType : String
  playerIDs : List String
deriving DecidableEq

/-- The `body` of a box-score feed response, with the `.get` defaults of
`scorepicks.py` already folded in. -/
structure BoxScoreBody where
  scoringPlays : List ScoringPlay
  gameStatus : String
  gameStatusCode : Int
deriving DecidableEq

/-- The store state read and written by the Score Reconciler. -/
structure ScoreState where
  picks : List Pick
  games : List GameRow
  leaderboard : List LeaderboardRow
deriving DecidableEq

/-- `UPDATE picks SET is_successful = 1 WHERE id = %s`. -/
def touchPick (pid : Nat) (p : Pick) : Pick :=
  if p.id = pid then { p with is_successful := 1 } else p

/-- `UPDATE leaderboard SET points_week = points_week + 1, total_points =
total_points + 1, last_updated = CURRENT_TIMESTAMP WHERE user_id = %s AND
week = %s AND points_week = 0`. -/
def incRow (uid wk now : Nat) (r : LeaderboardRow) : LeaderboardRow :=
  if r.user_id = uid ∧ r.week = wk ∧ r.points_week = 0 then
    { r with points_week := r.points_week + 1,
             total_points := r.total_points + 1, last_updated := now }
  else r

/-- `UPDATE games SET game_status = %s, game_status_code = %s,
last_updated = CURRENT_TIMESTAMP WHERE game_id = %s`. -/
def updateGameRow (gid : String) (body : BoxScoreBody) (now : Nat)
    (g : GameRow) : GameRow :=
  if g.game_id = gid then
    { g with game_status := body.gameStatus,
             game_status_code := body.gameStatusCode, last_updated := now }
  else g

/-- The inner scoring-play step of `check_player_scores_and_update_game_status`:
a play of type `"TD"` whose participant list contains `str(player_id)`
marks the pick successful and applies the zero-guarded leaderboard
increment. -/
def applyPlay (pick : Pick) (now : Nat) (st : ScoreState)
    (play : ScoringPlay) : ScoreState :=
  if play.scoreType = "TD" ∧ toString pick.player_id ∈ play.playerIDs then
    { st with picks := st.picks.map (touchPick pick.id),
              leaderboard := st.leaderboard.map (incRow pick.user_id pick.week now) }
  else st

/-- Processing of one pending pick: one box-score feed call for the
pick's game; a failed call (non-200) is logged and leaves the store
untouched; a successful call updates the game's status row and scans the
scoring plays. -/
def processPick (feed : String → Option BoxScoreBody) (now : Nat)
    (st : ScoreState) (pick : Pick) : ScoreState :=
  match feed pick.game_id with
  | some body =>
    let st1 := { st with games := st.games.map (updateGameRow pick.game_id body now) }
    body.scoringPlays.foldl (applyPlay pick now) st1
  | none => st

/-- `check_player_scores_and_update_game_status` from `scorepicks.py`:
snapshot all picks with `is_successful = 0`, then process each in order. -/
def check_player_scores_and_update_game_status
    (feed : String → Option BoxScoreBody) (now : Nat) (s : ScoreState) :
    ScoreState :=
  (s.picks.filter (fun p => p.is_successful == 0)).foldl (processPick feed now) s

/-- One player record of the player-list feed.  `designation` is
`player["injury"].get("designation", ...)`; the default differs per
caller (`"Unknown"` in `injuryCheck.py`, `"Healthy"` in
`playerUpdate.py`), so the raw optional value is kept. -/
structure FeedPlayer where
  playerID : Nat
  longName : String
  team : String
  teamID : String
  pos : String
  isFreeAgent : String
  designation : Option String
  espnHeadshot : String
deriving DecidableEq

/-- The payload of one `send_injury_notification` webhook call. -/
structure Notification where
  playerName : String
  injuryStatus : String
  taggedUsers : List Nat
deriving DecidableEq

/-- One loop iteration of `update_injury_status` (the hard path).  For a
feed player whose designation is `Out` or `Injured Reserve`: first
`DELETE FROM picks WHERE player_id = %s AND is_successful = 0`, then
`SELECT user_id FROM picks WHERE player_id = %s AND is_successful = 0`
(issued on the post-delete state of the same transaction), and a webhook
notification only when the selected list is nonempty. -/
def injuryStep (st : List Pick × List Notification) (player : FeedPlayer) :
    List Pick × List Notification :=
  let injury_status := player.designation.getD "Unknown"
  if injury_status = "Out" ∨ injury_status = "Injured Reserve" then
    let picks1 := st.1.filter
      (fun p => ¬ (p.player_id = player.playerID ∧ p.is_successful = 0))
    let tagged := (picks1.filter
      (fun p => p.player_id = player.playerID ∧ p.is_successful = 0)).map Pick.user_id
    let notes := if tagged = [] then st.2
      else st.2 ++ [⟨player.longName, injury_status, tagged⟩]
    (picks1, notes)
  else st

/-- `update_injury_status` from `injuryCheck.py`: the hard injury path
over the whole feed snapshot.  Returns the final picks table and the
list of notifications sent. -/
def update_injury_status (players : List FeedPlayer) (picks : List Pick) :
    List Pick × List Notification :=
  players.foldl injuryStep (picks, [])

/-- One team record of the teams feed, reduced to the fields read:
`teamAbv` and `byeWeeks["2024"]`. -/
structure FeedTeam where
  teamAbv : String
  byeWeeks2024 : List Nat
deriving DecidableEq

/-- The store state read and written by the Player/Injury Reconciler. -/
structure PlayerState where
  players : List PlayerRow
  picks : List Pick
deriving DecidableEq

/-- The per-snapshot-row flag update of `notify_injured_players`:
`UPDATE picks SET Is_injured = 1 WHERE player_id = %s AND user_id = %s
AND week = %s` (note: no `is_successful` filter on the update itself). -/
def flagPick (pid uid wk : Nat) (q : Pick) : Pick :=
  if q.player_id = pid ∧ q.user_id = uid ∧ q.week = wk then
    { q with is_injured := 1 }
  else q

/-- `notify_injured_players` from `playerUpdate.py` (the soft path):
snapshot the picks with `player_id = %s AND is_successful = 0 AND
Is_injured = 0`, then flag each of them (keyed by player, user, week) on
the live table. -/
def notify_injured_players (player_id : Nat) (picks : List Pick) : List Pick :=
  let snapshot := picks.filter (fun p =>
    p.player_id == player_id && p.is_successful == 0 && p.is_injured == 0)
  snapshot.foldl (fun acc p => acc.map (flagPick player_id p.user_id p.week)) picks

/-- The descriptive-field upsert `UPDATE players SET ... WHERE player_id = %s`. -/
def setPlayerFields (fp : FeedPlayer) (injury_status : String)
    (is_free_agent now : Nat) (r : PlayerRow) : PlayerRow :=
  if r.player_id = fp.playerID then
    { r with player_name := fp.longName, team_name := fp.team,
             team_id := fp.teamID, position := fp.pos,
             is_free_agent := is_free_agent, injury_status := injury_status,
             headshot_url := fp.espnHeadshot, last_updated := now }
  else r

/-- The team-change bye-week branch of `upsert_player_info`, acting on
the `players` table only.  Python's `byeWeeks["2024"][0]` on an empty
list would raise; it is modelled as a skip, and `if byeweek:` treats 0
as falsy. -/
def byeweekUpdatedPlayers (teams : List FeedTeam) (now : Nat)
    (player : FeedPlayer) (existing : PlayerRow) (rows : List PlayerRow) :
    List PlayerRow :=
  if existing.team_name ≠ player.team then
    match teams.find? (fun t => t.teamAbv == player.team) with
    | some matching_team =>
      match matching_team.byeWeeks2024.head? with
      | some byeweek =>
        if byeweek ≠ 0 then
          rows.map (fun r =>
            if r.player_id = player.playerID then
              { r with byeweek := some byeweek, last_updated := now }
            else r)
        else rows
      | none => rows
    | none => rows
  else rows

/-- The body of `upsert_player_info` from `playerUpdate.py` for one feed
player: look the player up; if present, update the bye week when the
team changed (a `players`-table write), soft-flag picks when the
designation is Doubtful / Out / Injured Reserve (a `picks`-table write
reading the pre-step picks, which the bye-week branch does not touch),
and rewrite the descriptive fields; if absent, insert a fresh row (no
pick is touched). -/
def upsertOnePlayer (teams : List FeedTeam) (now : Nat) (st : PlayerState)
    (player : FeedPlayer) : PlayerState :=
  let injury_status := player.designation.getD "Healthy"
  let is_free_agent := if player.isFreeAgent = "True" then 1 else 0
  match st.players.find? (fun r => r.player_id == player.playerID) with
  | some existing =>
    { players := (byeweekUpdatedPlayers teams now player existing st.players).map
        (setPlayerFields player injury_status is_free_agent now),
      picks :=
        if injury_status = "Doubtful" ∨ injury_status = "Out" ∨
            injury_status = "Injured Reserve" then
          notify_injured_players player.playerID st.picks
        else st.picks }
  | none =>
    { st with players := st.players ++
        [⟨player.playerID, player.longName, player.team, player.teamID,
          player.pos, is_free_agent, injury_status, player.espnHeadshot,
          none, now⟩] }

/-- `upsert_player_info` from `playerUpdate.py`: process the player feed
in order against the store. -/
def upsert_player_info (teams : List FeedTeam) (players : List FeedPlayer)
    (now : Nat) (s : PlayerState) : PlayerState :=
  players.foldl (upsertOnePlayer teams now) s

/-- One game record of the schedule feed.  `gameStatusCode` is already
`int(...)`-converted. -/
structure FeedGame where
  gameID : String
  seasonType : String
  gameDate : String
  gameTime : String
  gameWeek : String
  home : String
  away : String
  teamIDHome : String
  teamIDAway : String
  gameStatus : String
  gameStatusCode : Int
  neutralSite : String
  espnLink : String
  cbsLink : String
  season : String
deriving DecidableEq

/-- The 13 tracked columns compared by the `existing_values` /
`new_values` dictionaries of `fetchschedule.upsert_game_data`
(everything but `game_id` and `last_updated`). -/
structure GameFields where
  season_type : String
  week : Nat
  home_team : String
  away_team : String
  teamID_home : String
  teamID_away : String
  game_time : Option PyDateTime
  game_status : String
  game_status_code : Int
  neutral_site : Nat
  espn_link : String
  cbs_link : String
  season : String
deriving DecidableEq

/-- The tracked columns of a stored game row. -/
def GameRow.fields (g : GameRow) : GameFields :=
  ⟨g.season_type, g.week, g.home_team, g.away_team, g.teamID_home,
   g.teamID_away, g.game_time, g.game_status, g.game_status_code,
   g.neutral_site, g.espn_link, g.cbs_link, g.season⟩

/-- The tracked columns computed from one feed game (given its
determined week). -/
def feedFields (tz : PyDateTime → PyDateTime) (week : Nat)
    (game : FeedGame) : GameFields :=
  ⟨game.seasonType, week, game.home, game.away, game.teamIDHome,
   game.teamIDAway, convert_to_irish_time tz game.gameDate game.gameTime,
   game.gameStatus, game.gameStatusCode,
   (if game.neutralSite = "True" then 1 else 0), game.espnLink,
   game.cbsLink, game.season⟩

/-- Write the tracked columns and stamp `last_updated`. -/
def setGameFields (f : GameFields) (now : Nat) (g : GameRow) : GameRow :=
  { g with season_type := f.season_type, week := f.week,
           home_team := f.home_team, away_team := f.away_team,
           teamID_home := f.teamID_home, teamID_away := f.teamID_away,
           game_time := f.game_time, game_status := f.game_status,
           game_status_code := f.game_status_code,
           neutral_site := f.neutral_site, espn_link := f.espn_link,
           cbs_link := f.cbs_link, last_updated := now, season := f.season }

/-- A freshly inserted game row. -/
def newGameRow (gid : String) (f : GameFields) (now : Nat) : GameRow :=
  ⟨gid, f.season_type, f.week, f.home_team, f.away_team, f.teamID_home,
   f.teamID_away, f.game_time, f.game_status, f.game_status_code,
   f.neutral_site, f.espn_link, f.cbs_link, now, f.season⟩

namespace FetchSchedule

/-- `upsert_game_data` from `fetchschedule.py`: per feed game, skip when
the week is undetermined; if a row with the game's id exists, compare
the 13 tracked columns and issue the `UPDATE` (stamping `last_updated`)
only when at least one differs; otherwise `INSERT`. -/
def upsert_game_data (tz : PyDateTime → PyDateTime) (now : Nat)
    (games : List FeedGame) (tbl : List GameRow) : List GameRow :=
  games.foldl (fun tbl game =>
    match determine_week game.gameDate with
    | none => tbl
    | some week =>
      let nf := feedFields tz week game
      match tbl.find? (fun g => g.game_id == game.gameID) with
      | some existing =>
        if existing.fields ≠ nf then
          tbl.map (fun g => if g.game_id = game.gameID then setGameFields nf now g else g)
        else tbl
      | none => tbl ++ [newGameRow game.gameID nf now]) tbl

end FetchSchedule

namespace ScheduleUpdate

/-- `upsert_game_data` from `scheduleUpdate.py`: per feed game, skip when
the week is undetermined; otherwise `INSERT ... ON DUPLICATE KEY UPDATE`
keyed on `game_id` — an existing row is rewritten with every tracked
column and `last_updated = CURRENT_TIMESTAMP` unconditionally. -/
def upsert_game_data (tz : PyDateTime → PyDateTime) (now : Nat)
    (games : List FeedGame) (tbl : List GameRow) : List GameRow :=
  games.foldl (fun tbl game =>
    match determine_week game.gameDate with
    | none => tbl
    | some week =>
      let nf := feedFields tz week game
      if tbl.any (fun g => g.game_id == game.gameID) then
        tbl.map (fun g => if g.game_id = game.gameID then setGameFields nf now g else g)
      else tbl ++ [newGameRow game.gameID nf now]) tbl

end ScheduleUpdate

/-- The `f"Week {week}"` label against which `game["gameWeek"]` is
matched. -/
def weekLabel (week : Nat) : String := "Week " ++ toString week

/-- The key predicate of the `pick_window` existence check. -/
def pwKey (week season : Nat) (t : PyDateTime) (r : PickWindowRow) : Prop :=
  r.week = week ∧ r.season = season ∧ r.start_time = t

instance (week season : Nat) (t : PyDateTime) (r : PickWindowRow) :
    Decidable (pwKey week season t r) := by
  unfold pwKey; infer_instance

/-- One step of the `pick_window` loop: a `None` conversion is skipped;
otherwise `SELECT id FROM pick_window WHERE week = %s AND season = %s
AND start_time = %s` and an `INSERT` only when no row was found. -/
def pwStep (week season now : Nat) (acc : List PickWindowRow)
    (st : Option PyDateTime × String) : List PickWindowRow :=
  match st.1 with
  | none => acc
  | some t =>
    if acc.any (fun r => decide (pwKey week season t r)) then acc
    else acc ++ [⟨week, season, dayName t, t, 0, now⟩]

/-- The `game_times` list of `update_pick_window_table`: `(converted
time, date)` pairs of the games whose `gameWeek` label matches the
week. -/
def gameTimesFor (tz : PyDateTime → PyDateTime) (games : List FeedGame)
    (week : Nat) : List (Option PyDateTime × String) :=
  (games.filter (fun g => g.gameWeek == weekLabel week)).map
    (fun g => (convert_to_irish_time tz g.gameDate g.gameTime, g.gameDate))

/-- `update_pick_window_table` from `fetchschedule.py` /
`scheduleUpdate.py`: collect the `game_times` pairs, return unchanged
when none match the week, else insert-if-absent each well-defined
time. -/
def update_pick_window_table (tz : PyDateTime → PyDateTime)
    (games : List FeedGame) (week season now : Nat)
    (pw : List PickWindowRow) : List PickWindowRow :=
  if (gameTimesFor tz games week).isEmpty then pw
  else (gameTimesFor tz games week).foldl (pwStep week season now) pw

/-! ### Structural lemmas about the Score Reconciler -/

/-- The pick's game's feed response contains a touchdown play listing
the pick's player. -/
def Scored (feed : String → Option BoxScoreBody) (p : Pick) : Prop :=
  ∃ body, feed p.game_id = some body ∧ ∃ play ∈ body.scoringPlays,
    play.scoreType = "TD" ∧ toString p.player_id ∈ play.playerIDs

/-- A pick transformation that either keeps a pick or marks it
successful. -/
def FlipLike (F : Pick → Pick) : Prop :=
  ∀ p, F p = p ∨ F p = { p with is_successful := 1 }

/-- A leaderboard transformation that either keeps a row or applies the
single zero-guarded increment. -/
def IncLike (G : LeaderboardRow → LeaderboardRow) : Prop :=
  ∀ r, G r = r ∨ (r.points_week = 0 ∧ ∃ t, G r =
    { r with points_week := r.points_week + 1,
             total_points := r.total_points + 1, last_updated := t })

theorem flipLike_id : FlipLike id := fun _ => Or.inl rfl

theorem incLike_id : IncLike id := fun _ => Or.inl rfl

theorem flipLike_is_one {F : Pick → Pick} (hF : FlipLike F) {q : Pick}
    (hq : q.is_successful = 1) : (F q).is_successful = 1 := by
  rcases hF q with h | h
  · rw [h, hq]
  · rw [h]

theorem flipLike_fix {F : Pick → Pick} (hF : FlipLike F) {q : Pick}
    (hq : q.is_successful = 1) : F q = q := by
  rcases hF q with h | h
  · exact h
  · rw [h]; cases q; simp_all

theorem flipLike_id_eq {F : Pick → Pick} (hF : FlipLike F) (q : Pick) :
    (F q).id = q.id := by
  rcases hF q with h | h <;> rw [h]

theorem flipLike_comp {f g : Pick → Pick} (hf : FlipLike f)
    (hg : FlipLike g) : FlipLike (f ∘ g) := by
  intro q
  rcases hg q with h | h
  · rcases hf q with h' | h'
    · left; simp [Function.comp, h, h']
    · right; simp [Function.comp, h, h']
  · right
    have h1 : f { q with is_successful := 1 } = { q with is_successful := 1 } :=
      flipLike_fix hf rfl
    simp [Function.comp, h, h1]

theorem incLike_fix {G : LeaderboardRow → LeaderboardRow} (hG : IncLike G)
    {r : LeaderboardRow} (hr : r.points_week ≠ 0) : G r = r := by
  rcases hG r with h | ⟨h0, _, _⟩
  · exact h
  · exact absurd h0 hr

theorem incLike_user_eq {G : LeaderboardRow → LeaderboardRow}
    (hG : IncLike G) (r : LeaderboardRow) : (G r).user_id = r.user_id := by
  rcases hG r with h | ⟨_, t, ht⟩
  · rw [h]
  · rw [ht]

theorem incLike_week_eq {G : LeaderboardRow → LeaderboardRow}
    (hG : IncLike G) (r : LeaderboardRow) : (G r).week = r.week := by
  rcases hG r with h | ⟨_, t, ht⟩
  · rw [h]
  · rw [ht]

theorem incLike_comp {f g : LeaderboardRow → LeaderboardRow}
    (hf : IncLike f) (hg : IncLike g) : IncLike (f ∘ g) := by
  intro r
  rcases hg r with h | ⟨h0, t, ht⟩
  · rcases hf r with h' | ⟨h0', t', ht'⟩
    · left; simp [Function.comp, h, h']
    · right; exact ⟨h0', t', by simp [Function.comp, h, ht']⟩
  · right
    refine ⟨h0, t, ?_⟩
    have hne : ({ r with points_week := r.points_week + 1, total_points := r.total_points + 1, last_updated := t } : LeaderboardRow).points_week ≠ 0 := by simp
    simp [Function.comp, ht, incLike_fix hf hne]

theorem flipLike_touchPick (pid : Nat) : FlipLike (touchPick pid) := by
  intro q
  by_cases h : q.id = pid
  · right; simp [touchPick, h]
  · left; simp [touchPick, h]

theorem incLike_incRow (uid wk now : Nat) : IncLike (incRow uid wk now) := by
  intro r
  by_cases h : r.user_id = uid ∧ r.week = wk ∧ r.points_week = 0
  · right; exact ⟨h.2.2, now, by simp [incRow, h]⟩
  · left; simp [incRow, h]

/-- Shape of the inner scoring-play fold: the picks and leaderboard
tables are mapped by flip-like / increment-like transformations, and a
matching play guarantees the pick's id is marked successful and the
matching zero-guard row is incremented exactly once. -/
theorem plays_core (pick : Pick) (now : Nat) (plays : List ScoringPlay) :
    ∀ st : ScoreState, ∃ F G, FlipLike F ∧ IncLike G ∧
      (plays.foldl (applyPlay pick now) st).picks = st.picks.map F ∧
      (plays.foldl (applyPlay pick now) st).leaderboard = st.leaderboard.map G ∧
      ((∃ play ∈ plays, play.scoreType = "TD" ∧
          toString pick.player_id ∈ play.playerIDs) →
        (∀ q, q.id = pick.id → (F q).is_successful = 1) ∧
        (∀ r : LeaderboardRow, r.user_id = pick.user_id → r.week = pick.week →
          r.points_week = 0 → ∃ t, G r =
            { r with points_week := r.points_week + 1,
                     total_points := r.total_points + 1, last_updated := t })) := by
  induction plays with
  | nil =>
    intro st
    exact ⟨id, id, flipLike_id, incLike_id, by simp, by simp, by simp⟩
  | cons play plays ih =>
    intro st
    by_cases hc : play.scoreType = "TD" ∧ toString pick.player_id ∈ play.playerIDs
    · have happly : applyPlay pick now st play =
        { st with picks := st.picks.map (touchPick pick.id),
                  leaderboard := st.leaderboard.map (incRow pick.user_id pick.week now) } := by
        simp [applyPlay, hc]
      obtain ⟨F2, G2, hF2, hG2, hp2, hl2, _⟩ := ih (applyPlay pick now st play)
      refine ⟨F2 ∘ touchPick pick.id, G2 ∘ incRow pick.user_id pick.week now,
        flipLike_comp hF2 (flipLike_touchPick _), incLike_comp hG2 (incLike_incRow _ _ _), ?_, ?_, ?_⟩
      · rw [List.foldl_cons, hp2, happly]; simp [List.map_map]
      · rw [List.foldl_cons, hl2, happly]; simp [List.map_map]
      · intro _
        constructor
        · intro q hqid
          have h1 : (touchPick pick.id q).is_successful = 1 := by
            simp [touchPick, hqid]
          exact flipLike_is_one hF2 h1
        · intro r hru hrw hr0
          have h1 : incRow pick.user_id pick.week now r =
              { r with points_week := r.points_week + 1,
                       total_points := r.total_points + 1, last_updated := now } := by
            simp [incRow, hru, hrw, hr0]
          refine ⟨now, ?_⟩
          show G2 (incRow pick.user_id pick.week now r) = _
          rw [h1, incLike_fix hG2 (by simp)]
    · have happly : applyPlay pick now st play = st := by simp [applyPlay, hc]
      obtain ⟨F2, G2, hF2, hG2, hp2, hl2, hcl⟩ := ih (applyPlay pick now st play)
      rw [happly] at hp2 hl2
      refine ⟨F2, G2, hF2, hG2, by rw [List.foldl_cons, happly]; exact hp2,
        by rw [List.foldl_cons, happly]; exact hl2, ?_⟩
      rintro ⟨play', hmem, hcond⟩
      rcases List.mem_cons.mp hmem with rfl | hmem'
      · exact absurd hcond hc
      · exact hcl ⟨play', hmem', hcond⟩

/-- Shape of processing one pick. -/
theorem processPick_core (feed : String → Option BoxScoreBody) (now : Nat)
    (st : ScoreState) (pick : Pick) :
    ∃ F G, FlipLike F ∧ IncLike G ∧
      (processPick feed now st pick).picks = st.picks.map F ∧
      (processPick feed now st pick).leaderboard = st.leaderboard.map G ∧
      (Scored feed pick →
        (∀ q, q.id = pick.id → (F q).is_successful = 1) ∧
        (∀ r : LeaderboardRow, r.user_id = pick.user_id → r.week = pick.week →
          r.points_week = 0 → ∃ t, G r =
            { r with points_week := r.points_week + 1,
                     total_points := r.total_points + 1, last_updated := t })) := by
  cases hfeed : feed pick.game_id with
  | none =>
    refine ⟨id, id, flipLike_id, incLike_id, by simp [processPick, hfeed],
      by simp [processPick, hfeed], ?_⟩
    rintro ⟨body, hb, -⟩
    rw [hfeed] at hb
    exact absurd hb (by simp)
  | some body =>
    obtain ⟨F, G, hF, hG, hp, hl, hcl⟩ := plays_core pick now body.scoringPlays
      { st with games := st.games.map (updateGameRow pick.game_id body now) }
    refine ⟨F, G, hF, hG, ?_, ?_, ?_⟩
    · simpa [processPick, hfeed] using hp
    · simpa [processPick, hfeed] using hl
    · rintro ⟨body', hb, play, hmem, hcond⟩
      rw [hfeed] at hb
      cases hb
      exact hcl ⟨play, hmem, hcond⟩

/-- Shape of a whole batch run over a list of picks. -/
theorem run_core (feed : String → Option BoxScoreBody) (now : Nat)
    (l : List Pick) : ∀ s : ScoreState, ∃ F G, FlipLike F ∧ IncLike G ∧
      (l.foldl (processPick feed now) s).picks = s.picks.map F ∧
      (l.foldl (processPick feed now) s).leaderboard = s.leaderboard.map G ∧
      ∀ p ∈ l, Scored feed p →
        (∀ q, q.id = p.id → (F q).is_successful = 1) ∧
        (∀ r : LeaderboardRow, r.user_id = p.user_id → r.week = p.week →
          r.points_week = 0 → ∃ t, G r =
            { r with points_week := r.points_week + 1,
                     total_points := r.total_points + 1, last_updated := t }) := by
  induction l with
  | nil =>
    intro s
    exact ⟨id, id, flipLike_id, incLike_id, by simp, by simp, by simp⟩
  | cons p l ih =>
    intro s
    obtain ⟨F1, G1, hF1, hG1, hp1, hl1, hc1⟩ := processPick_core feed now s p
    obtain ⟨F2, G2, hF2, hG2, hp2, hl2, hc2⟩ := ih (processPick feed now s p)
    refine ⟨F2 ∘ F1, G2 ∘ G1, flipLike_comp hF2 hF1, incLike_comp hG2 hG1, ?_, ?_, ?_⟩
    · rw [List.foldl_cons, hp2, hp1]; simp [List.map_map]
    · rw [List.foldl_cons, hl2, hl1]; simp [List.map_map]
    · intro p' hp' hs
      rcases List.mem_cons.mp hp' with rfl | hmem
      · obtain ⟨hq, hr⟩ := hc1 hs
        constructor
        · intro q hqid
          exact flipLike_is_one hF2 (hq q hqid)
        · intro r hru hrw hr0
          obtain ⟨t, ht⟩ := hr r hru hrw hr0
          refine ⟨t, ?_⟩
          show G2 (G1 r) = _
          rw [ht, incLike_fix hG2 (by simp)]
      · obtain ⟨hq2, hr2⟩ := hc2 p' hmem hs
        constructor
        · intro q hqid
          have hid : (F1 q).id = p'.id := by rw [flipLike_id_eq hF1 q, hqid]
          exact hq2 (F1 q) hid
        · intro r hru hrw hr0
          rcases hG1 r with h | ⟨_, t1, ht1⟩
          · obtain ⟨t, ht⟩ := hr2 r hru hrw hr0
            refine ⟨t, ?_⟩
            show G2 (G1 r) = _
            rw [h, ht]
          · refine ⟨t1, ?_⟩
            show G2 (G1 r) = _
            rw [ht1, incLike_fix hG2 (by simp)]

/-- The reconciler is the batch fold over the pending-pick snapshot. -/
theorem check_eq_foldl (feed : String → Option BoxScoreBody) (now : Nat)
    (s : ScoreState) :
    check_player_scores_and_update_game_status feed now s =
      (s.picks.filter (fun p => p.is_successful == 0)).foldl
        (processPick feed now) s := rfl

/-- A pick that scores no touchdown leaves every play-step untouched. -/
theorem noscore_plays (pick : Pick) (now : Nat) (plays : List ScoringPlay)
    (h : ∀ play ∈ plays, ¬ (play.scoreType = "TD" ∧
      toString pick.player_id ∈ play.playerIDs)) :
    ∀ st : ScoreState, plays.foldl (applyPlay pick now) st = st := by
  induction plays with
  | nil => intro st; rfl
  | cons play plays ih =>
    intro st
    have happly : applyPlay pick now st play = st := by
      simp [applyPlay, h play (List.mem_cons_self _ _)]
    rw [List.foldl_cons, happly]
    exact ih (fun q hq => h q (List.mem_cons_of_mem _ hq)) st

/-- A batch of picks none of which scores leaves picks and leaderboard
untouched (only game statuses are rewritten). -/
theorem noscore_fold (feed : String → Option BoxScoreBody) (now : Nat) :
    ∀ l : List Pick, (∀ p ∈ l, ¬ Scored feed p) → ∀ s : ScoreState,
      (l.foldl (processPick feed now) s).picks = s.picks ∧
      (l.foldl (processPick feed now) s).leaderboard = s.leaderboard := by
  intro l
  induction l with
  | nil => intro _ s; exact ⟨rfl, rfl⟩
  | cons p l ih =>
    intro h s
    have hps : (processPick feed now s p).picks = s.picks ∧
        (processPick feed now s p).leaderboard = s.leaderboard := by
      cases hfeed : feed p.game_id with
      | none => simp [processPick, hfeed]
      | some body =>
        have hnp : ∀ play ∈ body.scoringPlays, ¬ (play.scoreType = "TD" ∧
            toString p.player_id ∈ play.playerIDs) := by
          intro play hm hcond
          exact h p (List.mem_cons_self _ _) ⟨body, hfeed, play, hm, hcond⟩
        simp [processPick, hfeed, noscore_plays p now _ hnp]
    have hrest := ih (fun q hq => h q (List.mem_cons_of_mem _ hq))
      (processPick feed now s p)
    rw [List.foldl_cons]
    exact ⟨by rw [hrest.1, hps.1], by rw [hrest.2, hps.2]⟩

/-! ### Structural lemmas about the injury paths -/

/-- A pick transformation that either keeps a pick or soft-flags it
injured. -/
def FlagPres (Φ : Pick → Pick) : Prop :=
  ∀ q, Φ q = q ∨ Φ q = { q with is_injured := 1 }

theorem flagPres_id : FlagPres id := fun _ => Or.inl rfl

theorem flagPres_inj_one {Φ : Pick → Pick} (hΦ : FlagPres Φ) {q : Pick}
    (hq : q.is_injured = 1) : (Φ q).is_injured = 1 := by
  rcases hΦ q with h | h
  · rw [h, hq]
  · rw [h]

theorem flagPres_player_eq {Φ : Pick → Pick} (hΦ : FlagPres Φ) (q : Pick) :
    (Φ q).player_id = q.player_id := by
  rcases hΦ q with h | h <;> rw [h]

theorem flagPres_user_eq {Φ : Pick → Pick} (hΦ : FlagPres Φ) (q : Pick) :
    (Φ q).user_id = q.user_id := by
  rcases hΦ q with h | h <;> rw [h]

theorem flagPres_week_eq {Φ : Pick → Pick} (hΦ : FlagPres Φ) (q : Pick) :
    (Φ q).week = q.week := by
  rcases hΦ q with h | h <;> rw [h]

theorem flagPres_succ_eq {Φ : Pick → Pick} (hΦ : FlagPres Φ) (q : Pick) :
    (Φ q).is_successful = q.is_successful := by
  rcases hΦ q with h | h <;> rw [h]

theorem flagPres_comp {f g : Pick → Pick} (hf : FlagPres f)
    (hg : FlagPres g) : FlagPres (f ∘ g) := by
  intro q
  rcases hg q with h | h
  · rcases hf q with h' | h'
    · left; simp [Function.comp, h, h']
    · right; simp [Function.comp, h, h']
  · right
    rcases hf { q with is_injured := 1 } with h' | h' <;>
      simp [Function.comp, h, h']

theorem flagPres_flagPick (pid uid wk : Nat) : FlagPres (flagPick pid uid wk) := by
  intro q
  by_cases h : q.player_id = pid ∧ q.user_id = uid ∧ q.week = wk
  · right; simp [flagPick, h]
  · left; simp [flagPick, h]

/-- If `flagPick` moves a pick, the pick matched the (player, user, week)
key. -/
theorem flagPick_ne (pid uid wk : Nat) (q : Pick)
    (h : flagPick pid uid wk q ≠ q) :
    q.player_id = pid ∧ q.user_id = uid ∧ q.week = wk := by
  by_cases hc : q.player_id = pid ∧ q.user_id = uid ∧ q.week = wk
  · exact hc
  · exact absurd (by simp [flagPick, hc]) h

/-- Shape of the soft-flag fold over a snapshot list. -/
theorem notify_core (pid : Nat) (sl : List Pick) :
    ∀ acc : List Pick, ∃ Φ,
      sl.foldl (fun acc p => acc.map (flagPick pid p.user_id p.week)) acc
        = acc.map Φ ∧ FlagPres Φ ∧
      (∀ p' ∈ sl, ∀ q : Pick, q.player_id = pid → q.user_id = p'.user_id →
        q.week = p'.week → (Φ q).is_injured = 1) ∧
      (∀ q : Pick, Φ q ≠ q →
        ∃ p' ∈ sl, q.player_id = pid ∧ q.user_id = p'.user_id ∧ q.week = p'.week) := by
  induction sl with
  | nil =>
    intro acc
    refine ⟨id, by simp, flagPres_id, by simp, ?_⟩
    intro q hq
    exact absurd rfl hq
  | cons p' sl ih =>
    intro acc
    obtain ⟨Φ2, heq, hΦ2, hflag, hmove⟩ := ih (acc.map (flagPick pid p'.user_id p'.week))
    refine ⟨Φ2 ∘ flagPick pid p'.user_id p'.week, ?_, flagPres_comp hΦ2 (flagPres_flagPick _ _ _), ?_, ?_⟩
    · rw [List.foldl_cons, heq, List.map_map]
    · intro p'' hp'' q hqp hqu hqw
      rcases List.mem_cons.mp hp'' with rfl | hmem
      · have h1 : (flagPick pid p''.user_id p''.week q).is_injured = 1 := by
          simp [flagPick, hqp, hqu, hqw]
        exact flagPres_inj_one hΦ2 h1
      · have hq' := hflag p'' hmem (flagPick pid p'.user_id p'.week q)
        exact hq' (by rw [flagPres_player_eq (flagPres_flagPick pid p'.user_id p'.week), hqp])
          (by rw [flagPres_user_eq (flagPres_flagPick pid p'.user_id p'.week), hqu])
          (by rw [flagPres_week_eq (flagPres_flagPick pid p'.user_id p'.week), hqw])
    · intro q hq
      by_cases hfq : flagPick pid p'.user_id p'.week q = q
      · have : Φ2 q ≠ q := by
          intro hcon
          exact hq (by simp [Function.comp, hfq, hcon])
        obtain ⟨p'', hmem, hk⟩ := hmove q this
        exact ⟨p'', List.mem_cons_of_mem _ hmem, hk⟩
      · obtain ⟨h1, h2, h3⟩ := flagPick_ne _ _ _ _ hfq
        exact ⟨p', List.mem_cons_self _ _, h1, h2, h3⟩

/-- Shape of `notify_injured_players`: a flag-preserving map that flags
every pending unflagged pick of the player, and moves a pick only when a
pending unflagged snapshot pick shares its (player, user, week) key. -/
theorem notify_shape (pid : Nat) (picks : List Pick) :
    ∃ Φ, notify_injured_players pid picks = picks.map Φ ∧ FlagPres Φ ∧
      (∀ q ∈ picks, q.player_id = pid → q.is_successful = 0 →
        (q.is_injured = 0 ∨ q.is_injured = 1) → (Φ q).is_injured = 1) ∧
      (∀ q : Pick, Φ q ≠ q → ∃ p' ∈ picks, p'.is_successful = 0 ∧
        p'.is_injured = 0 ∧ q.player_id = pid ∧ q.user_id = p'.user_id ∧
        q.week = p'.week) := by
  obtain ⟨Φ, heq, hΦ, hflag, hmove⟩ := notify_core pid
    (picks.filter (fun p =>
      p.player_id == pid && p.is_successful == 0 && p.is_injured == 0)) picks
  refine ⟨Φ, heq, hΦ, ?_, ?_⟩
  · intro q hq hqp hqs hqi
    rcases hqi with hqi | hqi
    · have hsnap : q ∈ picks.filter (fun p =>
          p.player_id == pid && p.is_successful == 0 && p.is_injured == 0) := by
        rw [List.mem_filter]
        exact ⟨hq, by simp [hqp, hqs, hqi]⟩
      exact hflag q hsnap q hqp rfl rfl
    · exact flagPres_inj_one hΦ hqi
  · intro q hq
    obtain ⟨p', hmem, hk⟩ := hmove q hq
    rw [List.mem_filter] at hmem
    obtain ⟨hmem', hcond⟩ := hmem
    simp only [Bool.and_eq_true, beq_iff_eq] at hcond
    exact ⟨p', hmem', hcond.1.2, hcond.2, hk⟩

/-- One hard-path iteration never records a notification (the owner
`SELECT` runs after the `DELETE` of the very rows it is meant to read,
so it always selects the empty list). -/
theorem injuryStep_notes (st : List Pick × List Notification)
    (player : FeedPlayer) : (injuryStep st player).2 = st.2 := by
  unfold injuryStep
  by_cases h : player.designation.getD "Unknown" = "Out" ∨
      player.designation.getD "Unknown" = "Injured Reserve"
  · have htag : ((st.1.filter (fun p =>
        ¬ (p.player_id = player.playerID ∧ p.is_successful = 0))).filter
        (fun p => p.player_id = player.playerID ∧ p.is_successful = 0)).map
          Pick.user_id = [] := by
      rw [List.filter_filter]
      have : ∀ p ∈ st.1, ¬ ((decide (p.player_id = player.playerID ∧
          p.is_successful = 0) && decide ¬ (p.player_id = player.playerID ∧
          p.is_successful = 0)) = true) := by
        intro p _
        by_cases hc : p.player_id = player.playerID ∧ p.is_successful = 0 <;>
          simp [hc]
      rw [List.filter_eq_nil_iff.mpr this]
      rfl
    simp [h, htag]
  · simp [h]

/-- One hard-path iteration filters the picks table, keeping every
successful pick. -/
theorem injuryStep_picks (st : List Pick × List Notification)
    (player : FeedPlayer) :
    ∃ K : Pick → Bool, (injuryStep st player).1 = st.1.filter K ∧
      ∀ q : Pick, q.is_successful = 1 → K q = true := by
  unfold injuryStep
  by_cases h : player.designation.getD "Unknown" = "Out" ∨
      player.designation.getD "Unknown" = "Injured Reserve"
  · refine ⟨fun p => decide ¬ (p.player_id = player.playerID ∧
      p.is_successful = 0), by simp [h], ?_⟩
    intro q hq
    simp [hq]
  · exact ⟨fun _ => true, by simp [h], fun _ _ => rfl⟩

/-- Shape of the whole hard injury pass: the picks table is filtered by
a predicate that keeps every successful pick, and no notification is
ever sent. -/
theorem injury_fold_shape (players : List FeedPlayer) :
    ∀ acc : List Pick × List Notification,
      ∃ K : Pick → Bool, (players.foldl injuryStep acc).1 = acc.1.filter K ∧
        (∀ q : Pick, q.is_successful = 1 → K q = true) ∧
        (players.foldl injuryStep acc).2 = acc.2 := by
  induction players with
  | nil =>
    intro acc
    exact ⟨fun _ => true, by simp, fun _ _ => rfl, rfl⟩
  | cons player players ih =>
    intro acc
    obtain ⟨K1, hK1, hK1s⟩ := injuryStep_picks acc player
    obtain ⟨K2, hK2, hK2s, hnotes⟩ := ih (injuryStep acc player)
    refine ⟨fun p => K2 p && K1 p, ?_, ?_, ?_⟩
    · rw [List.foldl_cons, hK2, hK1, List.filter_filter]
    · intro q hq
      simp [hK1s q hq, hK2s q hq]
    · rw [List.foldl_cons, hnotes, injuryStep_notes]

/-- The data-model invariant of §3 of the design: one active pick per
(user, week). -/
def PickUniq (ps : List Pick) : Prop :=
  ∀ p ∈ ps, ∀ q ∈ ps, p.user_id = q.user_id → p.week = q.week → p = q

theorem pickUniq_map {Φ : Pick → Pick} (hΦ : FlagPres Φ) {ps : List Pick}
    (h : PickUniq ps) : PickUniq (ps.map Φ) := by
  intro p hp q hq hu hw
  obtain ⟨p0, hp0, rfl⟩ := List.mem_map.mp hp
  obtain ⟨q0, hq0, rfl⟩ := List.mem_map.mp hq
  rw [flagPres_user_eq hΦ p0, flagPres_user_eq hΦ q0] at hu
  rw [flagPres_week_eq hΦ p0, flagPres_week_eq hΦ q0] at hw
  rw [h p0 hp0 q0 hq0 hu hw]

/-- Shape of one player-upsert step on the picks table: a flag-preserving
map that, under the one-pick-per-(user, week) invariant, fixes every
successful pick. -/
theorem upsertOne_picks_shape (teams : List FeedTeam) (now : Nat)
    (st : PlayerState) (player : FeedPlayer) :
    ∃ Φ, (upsertOnePlayer teams now st player).picks = st.picks.map Φ ∧
      FlagPres Φ ∧
      (PickUniq st.picks → ∀ q ∈ st.picks, q.is_successful = 1 → Φ q = q) := by
  unfold upsertOnePlayer
  cases hfind : st.players.find? (fun r => r.player_id == player.playerID) with
  | none =>
    exact ⟨id, by simp, flagPres_id, fun _ _ _ _ => rfl⟩
  | some existing =>
    by_cases hinj : player.designation.getD "Healthy" = "Doubtful" ∨
        player.designation.getD "Healthy" = "Out" ∨
        player.designation.getD "Healthy" = "Injured Reserve"
    · obtain ⟨Φ, heq, hΦ, _, hmove⟩ := notify_shape player.playerID st.picks
      refine ⟨Φ, by simp [hinj, heq], hΦ, ?_⟩
      intro huniq q hq hq1
      by_cases hfix : Φ q = q
      · exact hfix
      · exfalso
        obtain ⟨p', hp'mem, hp's, _, _, hqu, hqw⟩ := hmove q hfix
        have := huniq q hq p' hp'mem hqu hqw
        rw [this] at hq1
        rw [hq1] at hp's
        exact Nat.one_ne_zero hp's
    · exact ⟨id, by simp [hinj], flagPres_id, fun _ _ _ _ => rfl⟩

/-- Shape of the whole player pass on the picks table. -/
theorem upsert_fold_picks (teams : List FeedTeam) (now : Nat)
    (players : List FeedPlayer) :
    ∀ st : PlayerState, PickUniq st.picks →
      ∃ Φ, (players.foldl (upsertOnePlayer teams now) st).picks
          = st.picks.map Φ ∧ FlagPres Φ ∧
        ∀ q ∈ st.picks, q.is_successful = 1 → Φ q = q := by
  induction players with
  | nil =>
    intro st _
    exact ⟨id, by simp, flagPres_id, fun _ _ _ => rfl⟩
  | cons player players ih =>
    intro st huniq
    obtain ⟨Φ1, h1, hΦ1, hfix1⟩ := upsertOne_picks_shape teams now st player
    have huniq' : PickUniq (upsertOnePlayer teams now st player).picks := by
      rw [h1]; exact pickUniq_map hΦ1 huniq
    obtain ⟨Φ2, h2, hΦ2, hfix2⟩ := ih (upsertOnePlayer teams now st player) huniq'
    refine ⟨Φ2 ∘ Φ1, ?_, flagPres_comp hΦ2 hΦ1, ?_⟩
    · rw [List.foldl_cons, h2, h1, List.map_map]
    · intro q hq hq1
      have hfq1 : Φ1 q = q := hfix1 huniq q hq hq1
      have hqmem : q ∈ (upsertOnePlayer teams now st player).picks := by
        rw [h1]
        exact List.mem_map.mpr ⟨q, hq, hfq1⟩
      show Φ2 (Φ1 q) = q
      rw [hfq1, hfix2 q hqmem hq1]

/-! ### Structural lemmas about the pick-window update -/

/-- Rows survive one insert-if-absent step. -/
theorem pwStep_mono (week season now : Nat) (acc : List PickWindowRow)
    (x : Option PyDateTime × String) (r : PickWindowRow) (hr : r ∈ acc) :
    r ∈ pwStep week season now acc x := by
  unfold pwStep
  cases x.1 with
  | none => exact hr
  | some t' =>
    by_cases h : acc.any (fun r => decide (pwKey week season t' r)) = true
    · simpa [h] using hr
    · simp only [h]
      simp only [Bool.false_eq_true, if_false]
      exact List.mem_append_left _ hr

/-- Rows survive the whole insert-if-absent fold. -/
theorem pw_fold_mono (week season now : Nat) (l : List (Option PyDateTime × String)) :
    ∀ (acc : List PickWindowRow) (r : PickWindowRow), r ∈ acc →
      r ∈ l.foldl (pwStep week season now) acc := by
  induction l with
  | nil => intro acc r hr; exact hr
  | cons x l ih =>
    intro acc r hr
    rw [List.foldl_cons]
    exact ih _ r (pwStep_mono week season now acc x r hr)

/-- After the fold, every well-defined time of the list has a keyed
row. -/
theorem pw_fold_mem (week season now : Nat) (t : PyDateTime)
    (l : List (Option PyDateTime × String)) :
    ∀ (acc : List PickWindowRow) (gd : String), (some t, gd) ∈ l →
      ∃ r ∈ l.foldl (pwStep week season now) acc, pwKey week season t r := by
  induction l with
  | nil => intro acc gd h; exact absurd h (List.not_mem_nil _)
  | cons x l ih =>
    intro acc gd hmem
    rcases List.mem_cons.mp hmem with rfl | hmem'
    · rw [List.foldl_cons]
      by_cases h : acc.any (fun r => decide (pwKey week season t r)) = true
      · obtain ⟨r, hr, hkey⟩ := List.any_eq_true.mp h
        exact ⟨r, pw_fold_mono week season now l _ r
          (pwStep_mono week season now acc _ r hr), of_decide_eq_true hkey⟩
      · have hstep : pwStep week season now acc (some t, gd) =
            acc ++ [⟨week, season, dayName t, t, 0, now⟩] := by
          simp only [pwStep, h]
          simp
        rw [hstep]
        exact ⟨⟨week, season, dayName t, t, 0, now⟩,
          pw_fold_mono week season now l _ _
            (List.mem_append_right _ (List.mem_singleton_self _)),
          rfl, rfl, rfl⟩
    · rw [List.foldl_cons]; exact ih _ gd hmem'

/-- If every well-defined time of the list already has a keyed row, the
fold is a no-op. -/
theorem pw_fold_nop (week season now : Nat)
    (l : List (Option PyDateTime × String)) :
    ∀ acc : List PickWindowRow,
      (∀ t' gd, (some t', gd) ∈ l → ∃ r ∈ acc, pwKey week season t' r) →
      l.foldl (pwStep week season now) acc = acc := by
  induction l with
  | nil => intro acc _; rfl
  | cons x l ih =>
    intro acc h
    have hstep : pwStep week season now acc x = acc := by
      unfold pwStep
      cases hx : x.1 with
      | none => rfl
      | some t' =>
        obtain ⟨r, hr, hkey⟩ := h t' x.2 (by rw [← hx]; exact List.mem_cons_self _ _)
        have : acc.any (fun r => decide (pwKey week season t' r)) = true :=
          List.any_eq_true.mpr ⟨r, hr, decide_eq_true hkey⟩
        simp [this]
    rw [List.foldl_cons, hstep]
    exact ih acc (fun t' gd hm => h t' gd (List.mem_cons_of_mem _ hm))

/-- Once a keyed row exists, the fold never changes the key's count. -/
theorem pw_fold_countP_pos (week season now : Nat) (t : PyDateTime)
    (l : List (Option PyDateTime × String)) :
    ∀ acc : List PickWindowRow,
      0 < acc.countP (fun r => decide (pwKey week season t r)) →
      (l.foldl (pwStep week season now) acc).countP
          (fun r => decide (pwKey week season t r)) =
        acc.countP (fun r => decide (pwKey week season t r)) := by
  induction l with
  | nil => intro acc _; rfl
  | cons x l ih =>
    intro acc hpos
    have hstep : (pwStep week season now acc x).countP
        (fun r => decide (pwKey week season t r)) =
        acc.countP (fun r => decide (pwKey week season t r)) := by
      unfold pwStep
      cases hx : x.1 with
      | none => rfl
      | some t' =>
        by_cases h : acc.any (fun r => decide (pwKey week season t' r)) = true
        · simp [h]
        · by_cases htt : t' = t
          · exfalso
            subst htt
            obtain ⟨r, hr, hkey⟩ := List.countP_pos_iff.mp hpos
            exact h (List.any_eq_true.mpr ⟨r, hr, hkey⟩)
          · simp only [h]
            simp only [Bool.false_eq_true, if_false]
            rw [List.countP_append]
            have : (List.countP (fun r => decide (pwKey week season t r))
                [⟨week, season, dayName t', t', 0, now⟩]) = 0 := by
              simp [List.countP, List.countP.go, pwKey, htt]
            rw [this]
            omega
    rw [List.foldl_cons]
    rw [ih _ (by rw [hstep]; exact hpos), hstep]

/-- Starting with no keyed row, the fold inserts exactly one row for a
well-defined time of the list. -/
theorem pw_fold_count_one (week season now : Nat) (t : PyDateTime)
    (l : List (Option PyDateTime × String)) :
    ∀ (acc : List PickWindowRow) (gd : String),
      acc.countP (fun r => decide (pwKey week season t r)) = 0 →
      (some t, gd) ∈ l →
      (l.foldl (pwStep week season now) acc).countP
        (fun r => decide (pwKey week season t r)) = 1 := by
  induction l with
  | nil => intro acc gd _ h; exact absurd h (List.not_mem_nil _)
  | cons x l ih =>
    intro acc gd h0 hmem
    by_cases hx : x.1 = some t
    · have hany : acc.any (fun r => decide (pwKey week season t r)) = false := by
        by_contra hc
        rw [Bool.not_eq_false, List.any_eq_true] at hc
        obtain ⟨r, hr, hkey⟩ := hc
        have : 0 < acc.countP (fun r => decide (pwKey week season t r)) :=
          List.countP_pos_iff.mpr ⟨r, hr, hkey⟩
        omega
      have hstep : pwStep week season now acc x =
          acc ++ [⟨week, season, dayName t, t, 0, now⟩] := by
        simp only [pwStep, hx]
        simp [hany]
      have hcount1 : (pwStep week season now acc x).countP
          (fun r => decide (pwKey week season t r)) = 1 := by
        rw [hstep, List.countP_append, h0]
        simp [List.countP, List.countP.go, pwKey]
      rw [List.foldl_cons]
      rw [pw_fold_countP_pos week season now t l _ (by rw [hcount1]; omega), hcount1]
    · have hstep : (pwStep week season now acc x).countP
          (fun r => decide (pwKey week season t r)) = 0 := by
        unfold pwStep
        cases hx1 : x.1 with
        | none => exact h0
        | some t' =>
          by_cases h : acc.any (fun r => decide (pwKey week season t' r)) = true
          · simp [h, h0]
          · have htt : t' ≠ t := by
              intro hc
              rw [hx1, hc] at hx
              exact hx rfl
            simp only [h]
            simp only [Bool.false_eq_true, if_false]
            rw [List.countP_append, h0]
            simp [List.countP, List.countP.go, pwKey, htt]
      have hmem' : (some t, gd) ∈ l := by
        rcases List.mem_cons.mp hmem with rfl | hm
        · exact absurd rfl hx
        · exact hm
      rw [List.foldl_cons]
      exact ih _ gd hstep hmem'

/-- Skipping failed feed calls: the batch fold equals the fold over the
picks whose feed call succeeds. -/
theorem fold_skip_none (feed : String → Option BoxScoreBody) (now : Nat)
    (l : List Pick) : ∀ s : ScoreState,
    l.foldl (processPick feed now) s =
      (l.filter (fun p => (feed p.game_id).isSome)).foldl (processPick feed now) s := by
  induction l with
  | nil => intro s; rfl
  | cons p l ih =>
    intro s
    cases hf : feed p.game_id with
    | none =>
      have hskip : processPick feed now s p = s := by simp [processPick, hf]
      rw [List.foldl_cons, hskip, List.filter_cons]
      have hcond : ((feed p.game_id).isSome : Bool) = false := by rw [hf]; rfl
      rw [hcond]
      simp only [Bool.false_eq_true, if_false]
      exact ih s
    | some body =>
      rw [List.foldl_cons, List.filter_cons]
      have hcond : ((feed p.game_id).isSome : Bool) = true := by rw [hf]; rfl
      rw [hcond, if_pos rfl, List.foldl_cons]
      exact ih (processPick feed now s p)

/-! ### Concrete sample data used by witnesses and counterexamples -/

/-- Identity stand-in for the abstract timezone conversion. -/
def sampleTz : PyDateTime → PyDateTime := fun dt => dt

/-- A pending pick: user 7 picked player 5 in game `g1`, week 9. -/
def samplePick : Pick := ⟨1, 7, 5, "g1", 9, 0, 0⟩

/-- The same pick already resolved successful. -/
def sampleSuccPick : Pick := ⟨1, 7, 5, "g1", 9, 1, 0⟩

/-- A touchdown play by player 5. -/
def samplePlay : ScoringPlay := ⟨"TD", ["5"]⟩

/-- A box score whose scoring plays contain `samplePlay`. -/
def sampleBody : BoxScoreBody := ⟨[samplePlay], "Live - In Progress", 2⟩

/-- A feed knowing only game `g1`. -/
def sampleFeed : String → Option BoxScoreBody :=
  fun g => if g = "g1" then some sampleBody else none

/-- A feed whose every call fails. -/
def sampleFeedDown : String → Option BoxScoreBody := fun _ => none

/-- User 7's leaderboard row for week 9, not yet scored this week. -/
def sampleRow : LeaderboardRow := ⟨7, 9, 0, 3, 0⟩

/-- A store for the Score Reconciler samples. -/
def sampleState : ScoreState := ⟨[samplePick], [], [sampleRow]⟩

/-- A feed player ruled Out. -/
def sampleFeedPlayerOut : FeedPlayer :=
  ⟨5, "John Doe", "TB", "1", "WR", "False", some "Out", "url"⟩

/-- A player store that has never seen player 5, with user 7's pending
pick. -/
def samplePlayerState : PlayerState := ⟨[], [samplePick]⟩

/-- A feed game with a `TBD` kickoff on 2024-11-03 in week 9. -/
def sampleGame : FeedGame :=
  ⟨"20241103_CHI@ARI", "Regular Season", "20241103", "TBD", "Week 9",
   "CHI", "ARI", "3", "22", "Scheduled", 1, "False", "el", "cl", "2024"⟩

/-- The stored row of `sampleGame` with every tracked field identical,
last updated at time 1. -/
def sampleGameRow : GameRow :=
  ⟨"20241103_CHI@ARI", "Regular Season", 9, "CHI", "ARI", "3", "22",
   none, "Scheduled", 1, 0, "el", "cl", 1, "2024"⟩

/-! ### The claims -/

/-- C1: In the hard-path injury check, for every player whose feed injury
designation is "Out" or "Injured Reserve", every unresolved pick
(is_successful = 0) referencing that player is deleted, and the user IDs
owning those deleted picks are collected and passed to the injury
notification exactly once per run.

The deletion half holds, but the owner `SELECT` runs after the `DELETE`
of the very rows it reads, so the collected list is always empty and the
notification is never sent: at the concrete failing input the pick of
user 7 is deleted while the notification list stays empty, and in
general no run ever records a notification. -/
theorem claim_C1_hard_path_notification :
    (update_injury_status [sampleFeedPlayerOut] [samplePick]).1 = [] ∧
    (update_injury_status [sampleFeedPlayerOut] [samplePick]).2 = [] ∧
    (∀ (players : List FeedPlayer) (picks : List Pick),
      (update_injury_status players picks).2 = []) := by
  refine ⟨by decide, by decide, ?_⟩
  intro players picks
  obtain ⟨K, _, _, hnotes⟩ := injury_fold_shape players (picks, [])
  exact hnotes

/-- C2: Running the Score Reconciler twice in succession against an
unchanged feed leaves the store in the identical state after the second
run as after the first: no pick changes is_successful a second time and
no leaderboard row's points_week or total_points is incremented a second
time. -/
theorem claim_C2_score_reconciler_idempotent
    (feed : String → Option BoxScoreBody) (now1 now2 : Nat) (s : ScoreState) :
    (check_player_scores_and_update_game_status feed now2
        (check_player_scores_and_update_game_status feed now1 s)).picks =
      (check_player_scores_and_update_game_status feed now1 s).picks ∧
    (check_player_scores_and_update_game_status feed now2
        (check_player_scores_and_update_game_status feed now1 s)).leaderboard =
      (check_player_scores_and_update_game_status feed now1 s).leaderboard := by
  obtain ⟨F, G, hF, hG, hpicks, hlb, hcl⟩ :=
    run_core feed now1 (s.picks.filter (fun q => q.is_successful == 0)) s
  have hs1p : (check_player_scores_and_update_game_status feed now1 s).picks
      = s.picks.map F := by rw [check_eq_foldl]; exact hpicks
  have hnos : ∀ p ∈ (check_player_scores_and_update_game_status feed
      now1 s).picks.filter (fun q => q.is_successful == 0), ¬ Scored feed p := by
    intro p hp hscored
    rw [List.mem_filter] at hp
    obtain ⟨hpmem, hp0⟩ := hp
    have hp0' : p.is_successful = 0 := by simpa using hp0
    rw [hs1p] at hpmem
    obtain ⟨p0, hp0mem, hfp0⟩ := List.mem_map.mp hpmem
    have hFp : F p0 = p0 := by
      rcases hF p0 with h | h
      · exact h
      · exfalso
        rw [h] at hfp0
        rw [← hfp0] at hp0'
        simp at hp0'
    have hpp : p = p0 := by rw [← hfp0, hFp]
    rw [hpp] at hp0' hscored
    have hmemfil : p0 ∈ s.picks.filter (fun q => q.is_successful == 0) :=
      List.mem_filter.mpr ⟨hp0mem, by simpa using hp0'⟩
    have hone := (hcl p0 hmemfil hscored).1 p0 rfl
    rw [hFp] at hone
    omega
  have hfinal := noscore_fold feed now2
    ((check_player_scores_and_update_game_status feed now1 s).picks.filter
      (fun q => q.is_successful == 0)) hnos
    (check_player_scores_and_update_game_status feed now1 s)
  rw [check_eq_foldl feed now2]
  exact hfinal

/-- C9: In a Score Reconciler run over a batch of pending picks, a failed
feed call for one pick's game never aborts the batch: the failure leaves
the store untouched for that pick, the remaining picks are still
processed, and transitions already applied for prior picks in the same
run are kept (the run equals the fold over exactly the picks whose feed
call succeeds). -/
theorem claim_C9_feed_failure_continues
    (feed : String → Option BoxScoreBody) (now : Nat) (s : ScoreState) :
    (∀ (st : ScoreState) (p : Pick), feed p.game_id = none →
      processPick feed now st p = st) ∧
    (check_player_scores_and_update_game_status feed now s =
      ((s.picks.filter (fun p => p.is_successful == 0)).filter
        (fun p => (feed p.game_id).isSome)).foldl (processPick feed now) s) := by
  constructor
  · intro st p h
    simp [processPick, h]
  · rw [check_eq_foldl]
    exact fold_skip_none feed now _ s

/-- Witness for C9 at a concrete failing feed. -/
theorem claim_C9_witness :
    processPick sampleFeedDown 5 sampleState samplePick = sampleState :=
  (claim_C9_feed_failure_continues sampleFeedDown 5 sampleState).1
    sampleState samplePick rfl

/-- C3: For every pick with is_successful = 0 whose (game_id, player_id)
matches a scoring play of type touchdown listing that player_id among
its participants, the Score Reconciler sets is_successful = 1, and the
owning user's (points_week, total_points) for that week are incremented
by exactly 1 the first time that user's pick for that week is marked
successful; a second increment for the same (user_id, week) never
occurs, in the same run or any later run. -/
theorem claim_C3_touchdown_scores_once (feed : String → Option BoxScoreBody)
    (now : Nat) (s : ScoreState) (p : Pick) (body : BoxScoreBody)
    (play : ScoringPlay) (r : LeaderboardRow)
    (hp : p ∈ s.picks) (h0 : p.is_successful = 0)
    (hf : feed p.game_id = some body) (hpl : play ∈ body.scoringPlays)
    (htd : play.scoreType = "TD")
    (hpid : toString p.player_id ∈ play.playerIDs)
    (_hr : r ∈ s.leaderboard) (hr0 : r.points_week = 0)
    (hru : r.user_id = p.user_id) (hrw : r.week = p.week)
    (huniq : ∀ r' ∈ s.leaderboard, r'.user_id = p.user_id →
      r'.week = p.week → r' = r) :
    (∀ q ∈ (check_player_scores_and_update_game_status feed now s).picks,
      q.id = p.id → q.is_successful = 1) ∧
    (∀ r' ∈ (check_player_scores_and_update_game_status feed now s).leaderboard,
      r'.user_id = p.user_id → r'.week = p.week →
        r'.points_week = 1 ∧ r'.total_points = r.total_points + 1) ∧
    (∀ (feed2 : String → Option BoxScoreBody) (now2 : Nat),
      ∀ r' ∈ (check_player_scores_and_update_game_status feed2 now2
          (check_player_scores_and_update_game_status feed now s)).leaderboard,
        r'.user_id = p.user_id → r'.week = p.week →
          r'.points_week = 1 ∧ r'.total_points = r.total_points + 1) := by
  obtain ⟨F, G, hF, hG, hpicks, hlb, hcl⟩ :=
    run_core feed now (s.picks.filter (fun q => q.is_successful == 0)) s
  have hs1p : (check_player_scores_and_update_game_status feed now s).picks
      = s.picks.map F := by rw [check_eq_foldl]; exact hpicks
  have hs1l : (check_player_scores_and_update_game_status feed now s).leaderboard
      = s.leaderboard.map G := by rw [check_eq_foldl]; exact hlb
  have hpfil : p ∈ s.picks.filter (fun q => q.is_successful == 0) :=
    List.mem_filter.mpr ⟨hp, by simpa using h0⟩
  have hscored : Scored feed p := ⟨body, hf, play, hpl, htd, hpid⟩
  obtain ⟨hclq, hclr⟩ := hcl p hpfil hscored
  have h2 : ∀ r' ∈ (check_player_scores_and_update_game_status feed
      now s).leaderboard, r'.user_id = p.user_id → r'.week = p.week →
      r'.points_week = 1 ∧ r'.total_points = r.total_points + 1 := by
    intro r' hr' hu' hw'
    rw [hs1l] at hr'
    obtain ⟨r0, hr0mem, hGr0⟩ := List.mem_map.mp hr'
    have hu0 : r0.user_id = p.user_id := by
      rw [← incLike_user_eq hG r0, hGr0]; exact hu'
    have hw0 : r0.week = p.week := by
      rw [← incLike_week_eq hG r0, hGr0]; exact hw'
    have hr0r : r0 = r := huniq r0 hr0mem hu0 hw0
    rw [hr0r] at hGr0
    obtain ⟨t, ht⟩ := hclr r hru hrw hr0
    rw [ht] at hGr0
    constructor
    · rw [← hGr0]; simp [hr0]
    · rw [← hGr0]
  refine ⟨?_, h2, ?_⟩
  · intro q hq hqid
    rw [hs1p] at hq
    obtain ⟨q0, hq0mem, hFq0⟩ := List.mem_map.mp hq
    have hq0id : q0.id = p.id := by
      rw [← flipLike_id_eq hF q0, hFq0]; exact hqid
    have := hclq q0 hq0id
    rw [hFq0] at this
    exact this
  · intro feed2 now2 r' hr' hu' hw'
    obtain ⟨F2, G2, hF2, hG2, hpicks2, hlb2, hcl2⟩ :=
      run_core feed2 now2
        ((check_player_scores_and_update_game_status feed now s).picks.filter
          (fun q => q.is_successful == 0))
        (check_player_scores_and_update_game_status feed now s)
    have hs2l : (check_player_scores_and_update_game_status feed2 now2
        (check_player_scores_and_update_game_status feed now s)).leaderboard
        = (check_player_scores_and_update_game_status feed
            now s).leaderboard.map G2 := by
      rw [check_eq_foldl feed2]; exact hlb2
    rw [hs2l] at hr'
    obtain ⟨r1, hr1mem, hG2r1⟩ := List.mem_map.mp hr'
    have hu1 : r1.user_id = p.user_id := by
      rw [← incLike_user_eq hG2 r1, hG2r1]; exact hu'
    have hw1 : r1.week = p.week := by
      rw [← incLike_week_eq hG2 r1, hG2r1]; exact hw'
    obtain ⟨hpw1, htp1⟩ := h2 r1 hr1mem hu1 hw1
    have hfix : G2 r1 = r1 := incLike_fix hG2 (by rw [hpw1]; exact one_ne_zero)
    rw [hfix] at hG2r1
    rw [← hG2r1]
    exact ⟨hpw1, htp1⟩

/-- Witness for C3: user 7's pick on player 5 scores in game `g1`. -/
theorem claim_C3_witness :
    (⟨7, 9, 1, 4, 5⟩ : LeaderboardRow).points_week = 1 ∧
    (⟨7, 9, 1, 4, 5⟩ : LeaderboardRow).total_points =
      sampleRow.total_points + 1 :=
  (claim_C3_touchdown_scores_once sampleFeed 5 sampleState samplePick
    sampleBody samplePlay sampleRow (by decide) (by decide) (by decide)
    (by decide) (by decide) (by decide) (by decide) (by decide) (by decide)
    (by decide) (by decide)).2.1 ⟨7, 9, 1, 4, 5⟩ (by decide) (by decide)
    (by decide)

/-- C4: A pick with is_successful = 1 is never mutated or deleted by any
subsequent pass of any reconciler (score reconciler, soft-flag injury
path, hard-delete injury path), regardless of feed content.  The
soft-flag update is keyed only by (player, user, week), so the statement
rests on the data model's one-pick-per-(user, week) invariant
(`PickUniq`). -/
theorem claim_C4_successful_pick_immutable (picks : List Pick) (px : Pick)
    (hmem : px ∈ picks) (hsucc : px.is_successful = 1)
    (huniq : PickUniq picks) :
    (∀ (feed : String → Option BoxScoreBody) (now : Nat)
      (games : List GameRow) (lb : List LeaderboardRow),
      ∃ F : Pick → Pick,
        (check_player_scores_and_update_game_status feed now
          ⟨picks, games, lb⟩).picks = picks.map F ∧ F px = px) ∧
    (∀ players : List FeedPlayer, ∃ K : Pick → Bool,
        (update_injury_status players picks).1 = picks.filter K ∧
        K px = true) ∧
    (∀ (teams : List FeedTeam) (fplayers : List FeedPlayer) (now : Nat)
      (prows : List PlayerRow), ∃ Φ : Pick → Pick,
        (upsert_player_info teams fplayers now ⟨prows, picks⟩).picks
          = picks.map Φ ∧ Φ px = px) := by
  refine ⟨?_, ?_, ?_⟩
  · intro feed now games lb
    obtain ⟨F, G, hF, hG, hpicks, hlb, hcl⟩ :=
      run_core feed now (picks.filter (fun q => q.is_successful == 0))
        ⟨picks, games, lb⟩
    exact ⟨F, by rw [check_eq_foldl]; exact hpicks, flipLike_fix hF hsucc⟩
  · intro players
    obtain ⟨K, hK, hKs, _⟩ := injury_fold_shape players (picks, [])
    exact ⟨K, hK, hKs px hsucc⟩
  · intro teams fplayers now prows
    obtain ⟨Φ, hΦeq, hΦ, hfix⟩ :=
      upsert_fold_picks teams now fplayers ⟨prows, picks⟩ huniq
    exact ⟨Φ, hΦeq, hfix px hmem hsucc⟩

/-- Witness for C4 on a store holding one successful pick. -/
theorem claim_C4_witness :
    ∃ F : Pick → Pick,
      (check_player_scores_and_update_game_status sampleFeed 5
        ⟨[sampleSuccPick], [], []⟩).picks = [sampleSuccPick].map F ∧
      F sampleSuccPick = sampleSuccPick :=
  (claim_C4_successful_pick_immutable [sampleSuccPick] sampleSuccPick
    (by decide) (by decide) (by unfold PickUniq; decide)).1 sampleFeed 5 [] []

/-- The `determineWeekAux` step on a two-or-more-entry table. -/
theorem determineWeekAux_cons (w s w2 s2 : Nat) (rest : List (Nat × Nat)) (d : Nat) :
    determineWeekAux ((w, s) :: (w2, s2) :: rest) d =
      if s ≤ d ∧ d < s2 then some w else determineWeekAux ((w2, s2) :: rest) d := rfl

/-- The `determineWeekAux` step on the last table entry. -/
theorem determineWeekAux_single (w s d : Nat) :
    determineWeekAux [(w, s)] d = some w := rfl

/-- `determineWeekAux` over the concrete 2024 week table as a chain of
date-interval tests with an unconditional last bucket. -/
theorem determineWeekAux_mapping (d : Nat) : determineWeekAux week_mapping d =
      if 20241017 ≤ d ∧ d < 20241024 then some 7
      else if 20241024 ≤ d ∧ d < 20241031 then some 8
      else if 20241031 ≤ d ∧ d < 20241107 then some 9
      else if 20241107 ≤ d ∧ d < 20241114 then some 10
      else if 20241114 ≤ d ∧ d < 20241121 then some 11
      else if 20241121 ≤ d ∧ d < 20241128 then some 12
      else if 20241128 ≤ d ∧ d < 20241205 then some 13
      else if 20241205 ≤ d ∧ d < 20241212 then some 14
      else if 20241212 ≤ d ∧ d < 20241219 then some 15
      else if 20241219 ≤ d ∧ d < 20241226 then some 16
      else if 20241226 ≤ d ∧ d < 20250102 then some 17
      else some 18 := by
  rw [week_mapping]
  rw [determineWeekAux_cons, determineWeekAux_cons, determineWeekAux_cons,
     determineWeekAux_cons, determineWeekAux_cons, determineWeekAux_cons,
     determineWeekAux_cons, determineWeekAux_cons, determineWeekAux_cons,
     determineWeekAux_cons, determineWeekAux_cons, determineWeekAux_single]

/-- C5: For every game record with a valid YYYYMMDD date, determine_week
returns the week number w of the fixed table such that the date falls
within [week_start(w), week_start(next week)); a date on or after the
last entry's start date maps to the last week (open-ended last bucket),
and a date before the first entry is handled per the same extension
rule (it falls through every interval test into the same open-ended
last bucket, week 18) rather than producing an arbitrary week. -/
theorem claim_C5_determine_week_buckets (gd : String) (d : Nat)
    (hp : parseDate8 gd = some d) :
    (∀ w, 7 ≤ w → w < 18 → weekStart w ≤ d → d < weekStart (w + 1) →
      determine_week gd = some w) ∧
    (weekStart 18 ≤ d → determine_week gd = some 18) ∧
    (d < weekStart 7 → determine_week gd = some 18) := by
  have hdw : determine_week gd = determineWeekAux week_mapping d := by
    unfold determine_week; rw [hp]; rfl
  rw [hdw, determineWeekAux_mapping]
  refine ⟨?_, ?_, ?_⟩
  · intro w h7 h18 hlo hhi
    have hw : w = 7 ∨ w = 8 ∨ w = 9 ∨ w = 10 ∨ w = 11 ∨ w = 12 ∨
        w = 13 ∨ w = 14 ∨ w = 15 ∨ w = 16 ∨ w = 17 := by omega
    rcases hw with rfl | rfl | rfl | rfl | rfl | rfl | rfl | rfl | rfl | rfl | rfl
    · norm_num [weekStart] at hlo hhi
      rw [if_pos (by omega : 20241017 ≤ d ∧ d < 20241024)]
    · norm_num [weekStart] at hlo hhi
      rw [if_neg (by omega : ¬ (20241017 ≤ d ∧ d < 20241024)),
          if_pos (by omega : 20241024 ≤ d ∧ d < 20241031)]
    · norm_num [weekStart] at hlo hhi
      rw [if_neg (by omega : ¬ (20241017 ≤ d ∧ d < 20241024)),
          if_neg (by omega : ¬ (20241024 ≤ d ∧ d < 20241031)),
          if_pos (by omega : 20241031 ≤ d ∧ d < 20241107)]
    · norm_num [weekStart] at hlo hhi
      rw [if_neg (by omega : ¬ (20241017 ≤ d ∧ d < 20241024)),
          if_neg (by omega : ¬ (20241024 ≤ d ∧ d < 20241031)),
          if_neg (by omega : ¬ (20241031 ≤ d ∧ d < 20241107)),
          if_pos (by omega : 20241107 ≤ d ∧ d < 20241114)]
    · norm_num [weekStart] at hlo hhi
      rw [if_neg (by omega : ¬ (20241017 ≤ d ∧ d < 20241024)),
          if_neg (by omega : ¬ (20241024 ≤ d ∧ d < 20241031)),
          if_neg (by omega : ¬ (20241031 ≤ d ∧ d < 20241107)),
          if_neg (by omega : ¬ (20241107 ≤ d ∧ d < 20241114)),
          if_pos (by omega : 20241114 ≤ d ∧ d < 20241121)]
    · norm_num [weekStart] at hlo hhi
      rw [if_neg (by omega : ¬ (20241017 ≤ d ∧ d < 20241024)),
          if_neg (by omega : ¬ (20241024 ≤ d ∧ d < 20241031)),
          if_neg (by omega : ¬ (20241031 ≤ d ∧ d < 20241107)),
          if_neg (by omega : ¬ (20241107 ≤ d ∧ d < 20241114)),
          if_neg (by omega : ¬ (20241114 ≤ d ∧ d < 20241121)),
          if_pos (by omega : 20241121 ≤ d ∧ d < 20241128)]
    · norm_num [weekStart] at hlo hhi
      rw [if_neg (by omega : ¬ (20241017 ≤ d ∧ d < 20241024)),
          if_neg (by omega : ¬ (20241024 ≤ d ∧ d < 20241031)),
          if_neg (by omega : ¬ (20241031 ≤ d ∧ d < 20241107)),
          if_neg (by omega : ¬ (20241107 ≤ d ∧ d < 20241114)),
          if_neg (by omega : ¬ (20241114 ≤ d ∧ d < 20241121)),
          if_neg (by omega : ¬ (20241121 ≤ d ∧ d < 20241128)),
          if_pos (by omega : 20241128 ≤ d ∧ d < 20241205)]
    · norm_num [weekStart] at hlo hhi
      rw [if_neg (by omega : ¬ (20241017 ≤ d ∧ d < 20241024)),
          if_neg (by omega : ¬ (20241024 ≤ d ∧ d < 20241031)),
          if_neg (by omega : ¬ (20241031 ≤ d ∧ d < 20241107)),
          if_neg (by omega : ¬ (20241107 ≤ d ∧ d < 20241114)),
          if_neg (by omega : ¬ (20241114 ≤ d ∧ d < 20241121)),
          if_neg (by omega : ¬ (20241121 ≤ d ∧ d < 20241128)),
          if_neg (by omega : ¬ (20241128 ≤ d ∧ d < 20241205)),
          if_pos (by omega : 20241205 ≤ d ∧ d < 20241212)]
    · norm_num [weekStart] at hlo hhi
      rw [if_neg (by omega : ¬ (20241017 ≤ d ∧ d < 20241024)),
          if_neg (by omega : ¬ (20241024 ≤ d ∧ d < 20241031)),
          if_neg (by omega : ¬ (20241031 ≤ d ∧ d < 20241107)),
          if_neg (by omega : ¬ (20241107 ≤ d ∧ d < 20241114)),
          if_neg (by omega : ¬ (20241114 ≤ d ∧ d < 20241121)),
          if_neg (by omega : ¬ (20241121 ≤ d ∧ d < 20241128)),
          if_neg (by omega : ¬ (20241128 ≤ d ∧ d < 20241205)),
          if_neg (by omega : ¬ (20241205 ≤ d ∧ d < 20241212)),
          if_pos (by omega : 20241212 ≤ d ∧ d < 20241219)]
    · norm_num [weekStart] at hlo hhi
      rw [if_neg (by omega : ¬ (20241017 ≤ d ∧ d < 20241024)),
          if_neg (by omega : ¬ (20241024 ≤ d ∧ d < 20241031)),
          if_neg (by omega : ¬ (20241031 ≤ d ∧ d < 20241107)),
          if_neg (by omega : ¬ (20241107 ≤ d ∧ d < 20241114)),
          if_neg (by omega : ¬ (20241114 ≤ d ∧ d < 20241121)),
          if_neg (by omega : ¬ (20241121 ≤ d ∧ d < 20241128)),
          if_neg (by omega : ¬ (20241128 ≤ d ∧ d < 20241205)),
          if_neg (by omega : ¬ (20241205 ≤ d ∧ d < 20241212)),
          if_neg (by omega : ¬ (20241212 ≤ d ∧ d < 20241219)),
          if_pos (by omega : 20241219 ≤ d ∧ d < 20241226)]
    · norm_num [weekStart] at hlo hhi
      rw [if_neg (by omega : ¬ (20241017 ≤ d ∧ d < 20241024)),
          if_neg (by omega : ¬ (20241024 ≤ d ∧ d < 20241031)),
          if_neg (by omega : ¬ (20241031 ≤ d ∧ d < 20241107)),
          if_neg (by omega : ¬ (20241107 ≤ d ∧ d < 20241114)),
          if_neg (by omega : ¬ (20241114 ≤ d ∧ d < 20241121)),
          if_neg (by omega : ¬ (20241121 ≤ d ∧ d < 20241128)),
          if_neg (by omega : ¬ (20241128 ≤ d ∧ d < 20241205)),
          if_neg (by omega : ¬ (20241205 ≤ d ∧ d < 20241212)),
          if_neg (by omega : ¬ (20241212 ≤ d ∧ d < 20241219)),
          if_neg (by omega : ¬ (20241219 ≤ d ∧ d < 20241226)),
          if_pos (by omega : 20241226 ≤ d ∧ d < 20250102)]
  · intro h
    norm_num [weekStart] at h
    rw [if_neg (by omega : ¬ (20241017 ≤ d ∧ d < 20241024)),
        if_neg (by omega : ¬ (20241024 ≤ d ∧ d < 20241031)),
        if_neg (by omega : ¬ (20241031 ≤ d ∧ d < 20241107)),
        if_neg (by omega : ¬ (20241107 ≤ d ∧ d < 20241114)),
        if_neg (by omega : ¬ (20241114 ≤ d ∧ d < 20241121)),
        if_neg (by omega : ¬ (20241121 ≤ d ∧ d < 20241128)),
        if_neg (by omega : ¬ (20241128 ≤ d ∧ d < 20241205)),
        if_neg (by omega : ¬ (20241205 ≤ d ∧ d < 20241212)),
        if_neg (by omega : ¬ (20241212 ≤ d ∧ d < 20241219)),
        if_neg (by omega : ¬ (20241219 ≤ d ∧ d < 20241226)),
        if_neg (by omega : ¬ (20241226 ≤ d ∧ d < 20250102))]
  · intro h
    norm_num [weekStart] at h
    rw [if_neg (by omega : ¬ (20241017 ≤ d ∧ d < 20241024)),
        if_neg (by omega : ¬ (20241024 ≤ d ∧ d < 20241031)),
        if_neg (by omega : ¬ (20241031 ≤ d ∧ d < 20241107)),
        if_neg (by omega : ¬ (20241107 ≤ d ∧ d < 20241114)),
        if_neg (by omega : ¬ (20241114 ≤ d ∧ d < 20241121)),
        if_neg (by omega : ¬ (20241121 ≤ d ∧ d < 20241128)),
        if_neg (by omega : ¬ (20241128 ≤ d ∧ d < 20241205)),
        if_neg (by omega : ¬ (20241205 ≤ d ∧ d < 20241212)),
        if_neg (by omega : ¬ (20241212 ≤ d ∧ d < 20241219)),
        if_neg (by omega : ¬ (20241219 ≤ d ∧ d < 20241226)),
        if_neg (by omega : ¬ (20241226 ≤ d ∧ d < 20250102))]

/-- Witness for C5: 2024-11-03 falls in week 9's bucket. -/
theorem claim_C5_witness : determine_week "20241103" = some 9 :=
  (claim_C5_determine_week_buckets "20241103" 20241103 (by decide)).1 9
    (by decide) (by decide) (by decide) (by decide)

/-- C6 counterexample: the claim asserts that an upsert with every
tracked field identical to the stored record performs no write "for
every upsert path over games".  On the `scheduleUpdate.py` path
(`INSERT ... ON DUPLICATE KEY UPDATE`), a feed game identical to
`sampleGameRow` (stored with last_updated = 1) still rewrites the row
and stamps last_updated = 999. -/
theorem claim_C6_counterexample :
    GameRow.fields sampleGameRow = feedFields sampleTz 9 sampleGame ∧
    determine_week sampleGame.gameDate = some 9 ∧
    sampleGameRow.last_updated = 1 ∧
    (ScheduleUpdate.upsert_game_data sampleTz 999 [sampleGame]
      [sampleGameRow]).map GameRow.last_updated = [999] ∧
    ScheduleUpdate.upsert_game_data sampleTz 999 [sampleGame]
      [sampleGameRow] ≠ [sampleGameRow] := by
  refine ⟨by decide, by decide, rfl, by decide, by decide⟩

/-- C6 as amended: on the `fetchschedule.py` upsert path, identical
tracked fields produce no write at all (every column including
last_updated is unchanged), and a difference in at least one tracked
field rewrites the row and stamps last_updated; the `scheduleUpdate.py`
path instead always rewrites an existing row and stamps last_updated,
identical fields or not. -/
theorem claim_C6_upsert_no_write_amended (tz : PyDateTime → PyDateTime)
    (now : Nat) (game : FeedGame) (tbl : List GameRow) (wk : Nat)
    (ex : GameRow) (hw : determine_week game.gameDate = some wk)
    (hfind : tbl.find? (fun g => g.game_id == game.gameID) = some ex) :
    (GameRow.fields ex = feedFields tz wk game →
      FetchSchedule.upsert_game_data tz now [game] tbl = tbl) ∧
    (GameRow.fields ex ≠ feedFields tz wk game →
      ∃ g ∈ FetchSchedule.upsert_game_data tz now [game] tbl,
        g.game_id = game.gameID ∧ g.last_updated = now ∧
        GameRow.fields g = feedFields tz wk game) ∧
    (∃ g ∈ ScheduleUpdate.upsert_game_data tz now [game] tbl,
      g.game_id = game.gameID ∧ g.last_updated = now ∧
      GameRow.fields g = feedFields tz wk game) := by
  have hmem : ex ∈ tbl := List.mem_of_find?_eq_some hfind
  have hid : ex.game_id = game.gameID := by
    have := List.find?_some hfind
    simpa using this
  refine ⟨?_, ?_, ?_⟩
  · intro heq
    simp only [FetchSchedule.upsert_game_data, List.foldl_cons,
      List.foldl_nil, hw, hfind]
    rw [if_neg]
    intro hne
    exact hne heq
  · intro hne
    simp only [FetchSchedule.upsert_game_data, List.foldl_cons,
      List.foldl_nil, hw, hfind]
    rw [if_pos hne]
    refine ⟨setGameFields (feedFields tz wk game) now ex,
      List.mem_map.mpr ⟨ex, hmem, by rw [if_pos hid]⟩, ?_, rfl, rfl⟩
    simpa [setGameFields] using hid
  · have hany : tbl.any (fun g => g.game_id == game.gameID) = true :=
      List.any_eq_true.mpr ⟨ex, hmem, by simp [hid]⟩
    simp only [ScheduleUpdate.upsert_game_data, List.foldl_cons,
      List.foldl_nil, hw, hany]
    rw [if_pos trivial]
    refine ⟨setGameFields (feedFields tz wk game) now ex,
      List.mem_map.mpr ⟨ex, hmem, by rw [if_pos hid]⟩, ?_, rfl, rfl⟩
    simpa [setGameFields] using hid

/-- Witness for the amended C6 at the concrete identical-fields store:
the fetchschedule path leaves the table untouched. -/
theorem claim_C6_witness :
    FetchSchedule.upsert_game_data sampleTz 999 [sampleGame]
      [sampleGameRow] = [sampleGameRow] :=
  (claim_C6_upsert_no_write_amended sampleTz 999 sampleGame [sampleGameRow]
    9 sampleGameRow (by decide) (by decide)).1 (by decide)

/-- C7: For every well-defined (non-absent) reconciled game start time,
a PickWindow row keyed by (week, season, start_time) exists after the
pass, and repeated runs of the pick-window update over the same games
create that row exactly once (insert-if-absent is idempotent; duplicate
attempts are no-ops). -/
theorem claim_C7_pick_window_idempotent (tz : PyDateTime → PyDateTime)
    (games : List FeedGame) (week season now now2 : Nat)
    (pw : List PickWindowRow) (g : FeedGame) (t : PyDateTime)
    (hg : g ∈ games) (hwk : g.gameWeek = weekLabel week)
    (ht : convert_to_irish_time tz g.gameDate g.gameTime = some t) :
    (∃ r ∈ update_pick_window_table tz games week season now pw,
      pwKey week season t r) ∧
    (update_pick_window_table tz games week season now2
        (update_pick_window_table tz games week season now pw) =
      update_pick_window_table tz games week season now pw) ∧
    (pw.countP (fun r => decide (pwKey week season t r)) = 0 →
      (update_pick_window_table tz games week season now pw).countP
        (fun r => decide (pwKey week season t r)) = 1) := by
  have hpair : ((some t : Option PyDateTime), g.gameDate) ∈
      gameTimesFor tz games week := by
    rw [← ht]
    exact List.mem_map.mpr ⟨g,
      List.mem_filter.mpr ⟨hg, by simp [hwk]⟩, rfl⟩
  have hne : gameTimesFor tz games week ≠ [] := List.ne_nil_of_mem hpair
  have hemp : (gameTimesFor tz games week).isEmpty = false := by
    rw [← Bool.not_eq_true, List.isEmpty_iff]
    exact hne
  have hrun : update_pick_window_table tz games week season now pw =
      (gameTimesFor tz games week).foldl (pwStep week season now) pw := by
    unfold update_pick_window_table
    rw [hemp]
    simp
  refine ⟨?_, ?_, ?_⟩
  · rw [hrun]
    exact pw_fold_mem week season now t _ pw g.gameDate hpair
  · have hrun2 : update_pick_window_table tz games week season now2
        (update_pick_window_table tz games week season now pw) =
        (gameTimesFor tz games week).foldl (pwStep week season now2)
          (update_pick_window_table tz games week season now pw) := by
      unfold update_pick_window_table
      rw [hemp]
      simp
    rw [hrun2]
    apply pw_fold_nop
    intro t' gd hm
    rw [hrun]
    exact pw_fold_mem week season now t' _ pw gd hm
  · intro h0
    rw [hrun]
    exact pw_fold_count_one week season now t _ pw g.gameDate h0 hpair

/-- Witness for C7 on a one-game feed with a parseable time: run the
update once from an empty table and obtain exactly one keyed row. -/
theorem claim_C7_witness :
    (update_pick_window_table sampleTz
        [{ sampleGame with gameTime := "1:00p" }] 9 2024 3 []).countP
      (fun r => decide (pwKey 9 2024
        (sampleTz ⟨20241103, 13, 0, 0, 0⟩) r)) = 1 :=
  (claim_C7_pick_window_idempotent sampleTz
    [{ sampleGame with gameTime := "1:00p" }] 9 2024 3 4 []
    { sampleGame with gameTime := "1:00p" }
    (sampleTz ⟨20241103, 13, 0, 0, 0⟩) (by decide) (by decide)
    (by decide)).2.2 (by decide)

/-- C8: convert_to_irish_time returns the feed time (date plus 12-hour
clock string in the source timezone) normalized by the timezone
conversion and truncated to whole minutes (seconds and microseconds
zero); for the input "TBD", an empty time, or any unparsable time or
date string it returns the explicit absent value None, never a default
time. -/
theorem claim_C8_convert_time (tz : PyDateTime → PyDateTime)
    (gd gt : String) :
    ((gt = "TBD" ∨ gt = "") → convert_to_irish_time tz gd gt = none) ∧
    (parseTime12 (substAmPm gt) = none →
      convert_to_irish_time tz gd gt = none) ∧
    (parseDate8 gd = none → convert_to_irish_time tz gd gt = none) ∧
    (∀ t, convert_to_irish_time tz gd gt = some t →
      t.second = 0 ∧ t.microsecond = 0 ∧
      ∃ hm dk, parseTime12 (substAmPm gt) = some hm ∧
        parseDate8 gd = some dk ∧
        t = { tz ⟨dk, hm.1, hm.2, 0, 0⟩ with second := 0, microsecond := 0 }) := by
  refine ⟨?_, ?_, ?_, ?_⟩
  · intro h
    simp [convert_to_irish_time, h]
  · intro h
    by_cases htbd : gt = "TBD" ∨ gt = ""
    · simp [convert_to_irish_time, htbd]
    · simp [convert_to_irish_time, htbd, h]
  · intro h
    by_cases htbd : gt = "TBD" ∨ gt = ""
    · simp [convert_to_irish_time, htbd]
    · cases hpt : parseTime12 (substAmPm gt) with
      | none => simp [convert_to_irish_time, htbd, hpt]
      | some hm => simp [convert_to_irish_time, htbd, hpt, h]
  · intro t hsome
    by_cases htbd : gt = "TBD" ∨ gt = ""
    · simp [convert_to_irish_time, htbd] at hsome
    · cases hpt : parseTime12 (substAmPm gt) with
      | none => simp [convert_to_irish_time, htbd, hpt] at hsome
      | some hm =>
        cases hpd : parseDate8 gd with
        | none => simp [convert_to_irish_time, htbd, hpt, hpd] at hsome
        | some dk =>
          simp only [convert_to_irish_time, htbd, hpt, hpd] at hsome
          rw [if_neg not_false] at hsome
          obtain rfl := (Option.some.injEq _ _).mp hsome
          exact ⟨rfl, rfl, hm, dk, rfl, rfl, rfl⟩

/-- Witness for C8 at the "TBD" sentinel. -/
theorem claim_C8_witness :
    convert_to_irish_time sampleTz "20241103" "TBD" = none :=
  (claim_C8_convert_time sampleTz "20241103" "TBD").1 (Or.inl rfl)

/-- C10: The soft-flag injury transition is applied only to players that
already exist in the store: for every player whose first feed sighting
carries designation Doubtful, Out, or Injured Reserve, the upsert
inserts the player record with that injury status but flags no pick as
injured in that run; pick flagging occurs for that player on a later
run, once the player record exists. -/
theorem claim_C10_first_sighting_soft_flag (teams : List FeedTeam)
    (now : Nat) (s : PlayerState) (f : FeedPlayer) (d : String)
    (hdes : f.designation = some d)
    (hd : d = "Doubtful" ∨ d = "Out" ∨ d = "Injured Reserve")
    (hnew : ∀ row ∈ s.players, row.player_id ≠ f.playerID)
    (hbool : ∀ pk ∈ s.picks, pk.is_injured = 0 ∨ pk.is_injured = 1) :
    (∃ row ∈ (upsert_player_info teams [f] now s).players,
      row.player_id = f.playerID ∧ row.injury_status = d) ∧
    (upsert_player_info teams [f] now s).picks = s.picks ∧
    (∀ pk ∈ (upsert_player_info teams [f] now
        (upsert_player_info teams [f] now s)).picks,
      pk.player_id = f.playerID → pk.is_successful = 0 →
        pk.is_injured = 1) := by
  have hfind : s.players.find? (fun r => r.player_id == f.playerID) = none := by
    rw [List.find?_eq_none]
    intro x hx
    simp [hnew x hx]
  have hstat : f.designation.getD "Healthy" = d := by rw [hdes]; rfl
  have hrow : upsert_player_info teams [f] now s =
      { s with players := s.players ++
        [⟨f.playerID, f.longName, f.team, f.teamID, f.pos,
          (if f.isFreeAgent = "True" then 1 else 0), d, f.espnHeadshot,
          none, now⟩] } := by
    show upsertOnePlayer teams now s f = _
    simp only [upsertOnePlayer, hfind, hstat]
  refine ⟨?_, ?_, ?_⟩
  · rw [hrow]
    exact ⟨_, List.mem_append_right _ (List.mem_singleton_self _), rfl, rfl⟩
  · rw [hrow]
  · have hfind2 : (upsert_player_info teams [f] now s).players.find?
        (fun r => r.player_id == f.playerID) =
        some ⟨f.playerID, f.longName, f.team, f.teamID, f.pos,
          (if f.isFreeAgent = "True" then 1 else 0), d, f.espnHeadshot,
          none, now⟩ := by
      rw [hrow]
      show (s.players ++ [_]).find? _ = _
      rw [List.find?_append, hfind]
      simp
    have hinj : d = "Doubtful" ∨ d = "Out" ∨ d = "Injured Reserve" := hd
    have hpicks2 : (upsert_player_info teams [f] now
        (upsert_player_info teams [f] now s)).picks =
        notify_injured_players f.playerID s.picks := by
      show (upsertOnePlayer teams now (upsert_player_info teams [f] now s) f).picks = _
      simp only [upsertOnePlayer, hfind2, hstat]
      rw [if_pos hinj, hrow]
    rw [hpicks2]
    obtain ⟨Φ, heq, hΦ, hflag, _⟩ := notify_shape f.playerID s.picks
    rw [heq]
    intro pk hpk hpid hpsucc
    obtain ⟨q0, hq0mem, hq0eq⟩ := List.mem_map.mp hpk
    have hq0p : q0.player_id = f.playerID := by
      rw [← flagPres_player_eq hΦ q0, hq0eq]; exact hpid
    have hq0s : q0.is_successful = 0 := by
      rw [← flagPres_succ_eq hΦ q0, hq0eq]; exact hpsucc
    have := hflag q0 hq0mem hq0p hq0s (hbool q0 hq0mem)
    rw [hq0eq] at this
    exact this

/-- Witness for C10: first sighting of Out player 5 in an empty player
store leaves user 7's pick untouched. -/
theorem claim_C10_witness :
    (upsert_player_info [] [sampleFeedPlayerOut] 3 samplePlayerState).picks =
      samplePlayerState.picks :=
  (claim_C10_first_sighting_soft_flag [] 3 samplePlayerState
    sampleFeedPlayerOut "Out" rfl (Or.inr (Or.inl rfl)) (by decide)
    (by decide)).2.1

end TDScheduler
